import Mathlib

/-!
# wsrep-lib: the client session coordinator (`src/client_context.cpp`)

A shallow embedding of `wsrep::client_context`: the lifecycle state machine
(`state`), the error slot (`override_error`) and the checkpoints
`before_command`, `after_command_before_result`, `after_command_after_result`,
`before_statement` and `after_statement`.

Conventions of the embedding.

* A member function is a state transformer `M α` over the record
  `client_context`; it ends either in `outcome.ok` (the call returned) or in
  `outcome.fail` (an `assert` failed, a `wsrep::runtime_error` was thrown, or
  the busy-wait loop did not finish).  Both carry the object as it was at
  that moment, so what a failing call had already written stays visible.
* `assert(...)` is an enforced check.
* The calling thread (`wsrep::this_thread::get_id()`) is an explicit
  argument `this_thread`.
* The collaborators that are not part of this file of the repository (the
  transaction object, the virtual `rollback()`, the server context) are the
  record `environment` and the fields of `client_context` that hold them.
* `debug_log_state` only writes to the log and is left out.
* The field `trace` is a ghost log of the effects of a call, in the order
  in which they happen.
-/

namespace wsrep

/-! ## Data model -/

/-- Modelled from the spec: the enumeration `wsrep::client_error`, whose
declaration is in a header outside this file.  The code names `e_success`
and `e_deadlock_error`; every other client-visible kind is `e_other k`. -/
inductive client_error
  | e_success
  | e_deadlock_error
  | e_other (kind : Nat)
  deriving DecidableEq, Repr

/-- The enumeration `wsrep::client_context::state`, in the order of the rows
and columns of the table in `client_context::state` (idle, exec, result,
quit). -/
inductive client_state
  | s_idle
  | s_exec
  | s_result
  | s_quit
  deriving DecidableEq, Repr

/-- Position of a lifecycle state in the enumeration, the index used by the
table `allowed`. -/
def client_state.toNat : client_state → Nat
  | .s_idle => 0
  | .s_exec => 1
  | .s_result => 2
  | .s_quit => 3

/-- Modelled from the spec: the enumeration
`wsrep::transaction_context::state`, declared outside this file.  The code
names the four states below; any further state is `s_other tag`. -/
inductive transaction_state
  | s_executing
  | s_must_abort
  | s_aborting
  | s_aborted
  | s_other (tag : Nat)
  deriving DecidableEq, Repr

/-- Modelled from the spec: what the session consumes of the transaction
object, the two queries `active()` and `state()`.  The code reads them
independently of each other (it asserts `state() == s_aborted` together with
`active() == false`), so they are two fields. -/
structure transaction_context where
  active_ : Bool
  state_ : transaction_state
  deriving DecidableEq, Repr

/-- Modelled from the spec: `wsrep::server_context::rollback_mode`. -/
inductive rollback_mode
  | rm_async
  | rm_sync
  deriving DecidableEq, Repr

/-- Modelled from the spec: what the session consumes of the server
context, the configured rollback mode. -/
structure server_context where
  rollback_mode_ : rollback_mode
  deriving DecidableEq, Repr

/-- The result of `client_context::after_statement`. -/
inductive after_statement_result
  | asr_success
  | asr_error
  | asr_may_retry
  deriving DecidableEq, Repr

/-- Ghost log entries: the calls made to the collaborators and the writes to
the two session fields. -/
inductive event
  | ev_rollback
  | ev_transaction_after_statement
  | ev_current_error (error : client_error)
  | ev_state (target : client_state)
  deriving DecidableEq, Repr

/-- The members of `wsrep::client_context` that the functions of this file
read or write, with the ghost log. -/
structure client_context where
  thread_id_ : Nat
  state_ : client_state
  current_error_ : client_error
  transaction_ : transaction_context
  server_context_ : server_context
  is_autocommit_ : Bool
  trace : List event
  deriving DecidableEq, Repr

/-- Modelled from the spec: the behaviour of the collaborators the session
calls.  `rollback` is the effect of the virtual `client_context::rollback()`
on the transaction, `after_statement` the effect of
`transaction_context::after_statement()`, and `foreign i` what the thread
that performs a brute-force abort does to the transaction during the
`i`-th turn of the busy-wait loop of `before_command`. -/
structure environment where
  rollback : transaction_context → transaction_context
  after_statement : transaction_context → transaction_context
  foreign : Nat → transaction_context → transaction_context

/-- Ways in which a call does not return. -/
inductive fault
  /-- The check `assert(wsrep::this_thread::get_id() == thread_id_)` failed. -/
  | wrong_thread
  /-- The check `assert(lock.owns_lock())` failed. -/
  | lock_not_owned
  /-- A lifecycle precondition `assert(state_ == expected)` failed. -/
  | wrong_state (expected : client_state)
  /-- An assertion about the transaction or the rollback mode failed, at the
  given line of `client_context.cpp`. -/
  | transaction_assert (line : Nat)
  /-- The check `assert(current_error() != wsrep::e_success)` failed. -/
  | error_not_set
  /-- The exception `wsrep::runtime_error("Overriding error with success")`. -/
  | overriding_error_with_success
  /-- The exception `wsrep::runtime_error` for an unallowed state
  transition. -/
  | unallowed_state_transition (source target : client_state)
  /-- The busy-wait loop of `before_command` was still spinning when the
  fuel ran out. -/
  | still_waiting
  deriving DecidableEq, Repr

/-- How a call ends, with the object as the call left it. -/
inductive outcome (α : Type)
  | ok (value : α) (s : client_context)
  | fail (f : fault) (s : client_context)
  deriving DecidableEq, Repr

/-- The object a call left behind, however it ended. -/
def outcome.final {α : Type} : outcome α → client_context
  | .ok _ s => s
  | .fail _ s => s

/-- A member function: a transformer of the object that returns or fails. -/
def M (α : Type) : Type := client_context → outcome α

/-- Return a value, leaving the object as it is. -/
def M.pure {α : Type} (v : α) : M α := fun s => .ok v s

/-- Sequencing: a failure ends the call. -/
def M.bind {α β : Type} (x : M α) (f : α → M β) : M β := fun s =>
  match x s with
  | .ok v s1 => f v s1
  | .fail e s1 => .fail e s1

instance : Monad M where
  pure := M.pure
  bind := M.bind

/-- Read the object. -/
def get_self : M client_context := fun s => .ok s s

/-- An enforced `assert`: the call ends with fault `f` when `c` is false. -/
def assert (c : Prop) [Decidable c] (f : fault) : M Unit := fun s =>
  if c then .ok () s else .fail f s

/-- Throwing `wsrep::runtime_error`. -/
def throw_runtime_error {α : Type} (f : fault) : M α := fun s => .fail f s

/-- The assignment `current_error_ = error`. -/
def set_current_error (error : client_error) : M Unit := fun s =>
  .ok () { s with current_error_ := error,
                  trace := s.trace ++ [.ev_current_error error] }

/-- The assignment `state_ = state`. -/
def set_state (target : client_state) : M Unit := fun s =>
  .ok () { s with state_ := target, trace := s.trace ++ [.ev_state target] }

/-- The call of the virtual `rollback()`. -/
def rollback (env : environment) : M Unit := fun s =>
  .ok () { s with transaction_ := env.rollback s.transaction_,
                  trace := s.trace ++ [.ev_rollback] }

/-- The call `transaction_.after_statement()`, its result discarded as in
the code. -/
def transaction_after_statement (env : environment) : M Unit := fun s =>
  .ok () { s with transaction_ := env.after_statement s.transaction_,
                  trace := s.trace ++ [.ev_transaction_after_statement] }

/-! ## The private transition operation -/

/-- The table `allowed[state_max_][state_max_]` of `client_context::state`,
rows indexed by the current state, columns by the requested one. -/
def allowed : List (List Nat) :=
  [ /-           idle exec result quit -/
    /- idle   -/ [0,   1,   0,     1],
    /- exec   -/ [0,   0,   1,     0],
    /- result -/ [1,   0,   0,     1],
    /- quit   -/ [0,   0,   0,     0] ]

/-- The lookup `allowed[state_][state]`. -/
def allowed_at (source target : client_state) : Nat :=
  (allowed.getD source.toNat []).getD target.toNat 0

/-- `void client_context::state(unique_lock& lock, enum state state)`.
The argument `lock` is whether the lock passed in is owned. -/
def state (this_thread : Nat) (lock : Bool) (target : client_state) :
    M Unit := do
  assert (this_thread = (← get_self).thread_id_) .wrong_thread
  assert (lock = true) .lock_not_owned
  let source := (← get_self).state_
  if allowed_at source target ≠ 0 then
    set_state target
  else
    throw_runtime_error (.unallowed_state_transition source target)

/-! ## The error slot -/

/-- `void client_context::override_error(enum client_error error)`. -/
def override_error (this_thread : Nat) (error : client_error) : M Unit := do
  assert (this_thread = (← get_self).thread_id_) .wrong_thread
  if (← get_self).current_error_ ≠ .e_success ∧ error = .e_success then
    throw_runtime_error .overriding_error_with_success
  set_current_error error

/-! ## The checkpoints -/

/-- The loop `while (transaction_.state() == s_aborting) { }` of
`before_command`.  Each turn reads the state of the transaction; between two
reads the foreign thread acts on the transaction (`env.foreign turn`).
`fuel` bounds the number of turns that are followed. -/
def wait_while_aborting (env : environment) : (fuel turn : Nat) → M Unit
  | 0, _ => fun s =>
    if s.transaction_.state_ = .s_aborting then .fail .still_waiting s
    else .ok () s
  | fuel + 1, turn => fun s =>
    if s.transaction_.state_ = .s_aborting then
      wait_while_aborting env fuel (turn + 1)
        { s with transaction_ := env.foreign turn s.transaction_ }
    else .ok () s

set_option linter.unusedVariables false in
/-- `int client_context::before_command()`.  The final `return 0` of the
code is reached from the two places written `return 0` here. -/
def before_command (env : environment) (fuel this_thread : Nat) : M Int := do
  let mut lock := true
  assert ((← get_self).state_ = .s_idle) (.wrong_state .s_idle)
  if (← get_self).server_context_.rollback_mode_ = .rm_sync then
    wait_while_aborting env fuel 0
  state this_thread lock .s_exec
  let mode := (← get_self).server_context_.rollback_mode_
  assert ((← get_self).transaction_.active_ = false ∨
          ((← get_self).transaction_.state_ = .s_executing ∨
           (← get_self).transaction_.state_ = .s_aborted ∨
           ((← get_self).transaction_.state_ = .s_must_abort ∧
            mode = .rm_async)))
    (.transaction_assert 47)
  if (← get_self).transaction_.active_ then
    if (← get_self).transaction_.state_ = .s_must_abort then
      assert (mode = .rm_async) (.transaction_assert 57)
      override_error this_thread .e_deadlock_error
      lock := false
      rollback env
      transaction_after_statement env
      lock := true
      assert ((← get_self).transaction_.state_ = .s_aborted)
        (.transaction_assert 64)
      assert ((← get_self).transaction_.active_ = false)
        (.transaction_assert 66)
      assert ((← get_self).current_error_ ≠ .e_success) .error_not_set
      return 1
    else if (← get_self).transaction_.state_ = .s_aborted then
      override_error this_thread .e_deadlock_error
      lock := false
      transaction_after_statement env
      lock := true
      assert ((← get_self).transaction_.active_ = false)
        (.transaction_assert 80)
      return 1
    else
      return 0
  else
    return 0

/-- `void client_context::after_command_before_result()`. -/
def after_command_before_result (env : environment) (this_thread : Nat) :
    M Unit := do
  let mut lock := true
  assert ((← get_self).state_ = .s_exec) (.wrong_state .s_exec)
  if (← get_self).transaction_.active_ ∧
      (← get_self).transaction_.state_ = .s_must_abort then
    override_error this_thread .e_deadlock_error
    lock := false
    rollback env
    transaction_after_statement env
    lock := true
    assert ((← get_self).transaction_.state_ = .s_aborted)
      (.transaction_assert 102)
    assert ((← get_self).current_error_ ≠ .e_success) .error_not_set
  state this_thread lock .s_result

/-- `void client_context::after_command_after_result()`. -/
def after_command_after_result (env : environment) (this_thread : Nat) :
    M Unit := do
  let mut lock := true
  assert ((← get_self).state_ = .s_result) (.wrong_state .s_result)
  assert ((← get_self).transaction_.state_ ≠ .s_aborting)
    (.transaction_assert 114)
  if (← get_self).transaction_.active_ ∧
      (← get_self).transaction_.state_ = .s_must_abort then
    lock := false
    rollback env
    lock := true
    assert ((← get_self).transaction_.state_ = .s_aborted)
      (.transaction_assert 121)
    override_error this_thread .e_deadlock_error
  else if (← get_self).transaction_.active_ = false then
    set_current_error .e_success
  state this_thread lock .s_idle

/-- `int client_context::before_statement()`. -/
def before_statement : M Int := do
  if (← get_self).transaction_.active_ ∧
      (← get_self).transaction_.state_ = .s_must_abort then
    return 1
  return 0

/-- `enum after_statement_result client_context::after_statement()`. -/
def after_statement (env : environment) : M after_statement_result := do
  assert ((← get_self).state_ = .s_exec) (.wrong_state .s_exec)
  transaction_after_statement env
  if (← get_self).current_error_ = .e_deadlock_error then
    if (← get_self).is_autocommit_ then
      return .asr_may_retry
    else
      return .asr_error
  return .asr_success

/-! ## A concrete collaborator -/

/-- A transaction object that behaves as the assertions of the code expect:
`rollback` leaves the transaction in `s_aborted`, `after_statement` clears
an aborted transaction (it is then no longer active) and leaves any other
one alone, and the foreign thread finishes the rollback it is performing. -/
def mock_environment : environment where
  rollback := fun t => { t with state_ := .s_aborted }
  after_statement := fun t =>
    if t.state_ = .s_aborted then { t with active_ := false } else t
  foreign := fun _ t =>
    if t.state_ = .s_aborting then { t with state_ := .s_aborted } else t

/-- A session of thread `7` in the given lifecycle state, with the given
error, transaction, rollback mode and autocommit flag, and an empty log. -/
def session (st : client_state) (e : client_error) (t : transaction_context)
    (mode : rollback_mode) (autocommit : Bool) : client_context where
  thread_id_ := 7
  state_ := st
  current_error_ := e
  transaction_ := t
  server_context_ := { rollback_mode_ := mode }
  is_autocommit_ := autocommit
  trace := []

/-! ## Round trips -/

/-- What the rest of the system has made of the surroundings of the session
by the time a checkpoint is entered: the transaction (which the thread that
performs a brute-force abort may have changed), the rollback mode, the error
(which the owner may have set while executing) and the autocommit flag. -/
structure surroundings where
  transaction_ : transaction_context
  rollback_mode_ : rollback_mode
  current_error_ : client_error
  is_autocommit_ : Bool
  deriving DecidableEq, Repr

/-- The session finds its surroundings as `w` when it enters a checkpoint.
The lifecycle state, the owning thread and the log are the session's own. -/
def arrive (w : surroundings) : M Unit := fun s =>
  .ok () { s with
    transaction_ := w.transaction_,
    server_context_ := { rollback_mode_ := w.rollback_mode_ },
    current_error_ := w.current_error_,
    is_autocommit_ := w.is_autocommit_ }

/-- The statements of one command: `before_statement` then `after_statement`
for each, with the surroundings found at either call. -/
def statements (env : environment) : List (surroundings × surroundings) → M Unit
  | [] => pure ()
  | (w1, w2) :: rest => do
    arrive w1
    let _ ← before_statement
    arrive w2
    let _ ← after_statement env
    statements env rest

/-- One round trip in the legal order of the checkpoints: `before_command`,
the statements, `after_command_before_result`, `after_command_after_result`,
each entered with the surroundings found at that moment.  The result of
`before_command` does not change the order of the calls. -/
def round_trip (env : environment) (fuel this_thread : Nat)
    (w0 : surroundings) (stmts : List (surroundings × surroundings))
    (w1 w2 : surroundings) : M Unit := do
  arrive w0
  let _ ← before_command env fuel this_thread
  statements env stmts
  arrive w1
  after_command_before_result env this_thread
  arrive w2
  after_command_after_result env this_thread

/-- A fault that comes from the transaction and not from the lifecycle of
the session: an assertion about the transaction failed, or the busy-wait
loop is still waiting for the transaction to leave `s_aborting`. -/
def fault.from_transaction : fault → Prop
  | .transaction_assert _ => True
  | .still_waiting => True
  | _ => False

/-- An outcome that keeps the lifecycle on the table: the call returned
with the session of thread `tid` in state `target`, or it stopped on a fault
that comes from the transaction. -/
def outcome.on_table {α : Type} (target : client_state) (tid : Nat) :
    outcome α → Prop
  | .ok _ s1 => s1.state_ = target ∧ s1.thread_id_ = tid
  | .fail f _ => f.from_transaction

/-- The collaborators behave as the assertions of the code expect:
`rollback` leaves the transaction in `s_aborted`, and `after_statement`
leaves an aborted transaction aborted and no longer active. -/
def environment.as_asserted (env : environment) : Prop :=
  (∀ t, (env.rollback t).state_ = .s_aborted) ∧
  (∀ t, t.state_ = .s_aborted →
    (env.after_statement t).state_ = .s_aborted ∧
    (env.after_statement t).active_ = false)

/-- The entry conditions of `before_command` on the surroundings: no wait
(in synchronous mode the transaction is not in `s_aborting`) and the
condition asserted at line 47. -/
def surroundings.before_command_entry (w : surroundings) : Prop :=
  (w.rollback_mode_ = .rm_sync → w.transaction_.state_ ≠ .s_aborting) ∧
  (w.transaction_.active_ = false ∨
    (w.transaction_.state_ = .s_executing ∨
     w.transaction_.state_ = .s_aborted ∨
     (w.transaction_.state_ = .s_must_abort ∧ w.rollback_mode_ = .rm_async)))

/-! ## Sequences of calls and the set of operations -/

/-- The transaction as the busy-wait loop finds it at its read number `k`
(counted from 0), when the loop starts at turn `start` on transaction `t`:
between two reads the foreign thread has acted once. -/
def observed (env : environment) (start : Nat) (t : transaction_context) :
    Nat → transaction_context
  | 0 => t
  | k + 1 => env.foreign (start + k) (observed env start t k)

/-- Forget the value a call returned. -/
def outcome.forget {α : Type} : outcome α → outcome Unit
  | .ok _ s => .ok () s
  | .fail f s => .fail f s

/-- The operations of the session that the owner calls. -/
inductive operation
  | op_override_error (error : client_error)
  | op_before_command (fuel : Nat)
  | op_before_statement
  | op_after_statement
  | op_after_command_before_result
  | op_after_command_after_result
  deriving DecidableEq, Repr

/-- Run an operation of the session, forgetting what it returns. -/
def operation.run (env : environment) (this_thread : Nat) :
    operation → client_context → outcome Unit
  | .op_override_error error, s => override_error this_thread error s
  | .op_before_command fuel, s => (before_command env fuel this_thread s).forget
  | .op_before_statement, s => (before_statement s).forget
  | .op_after_statement, s => (after_statement env s).forget
  | .op_after_command_before_result, s =>
    after_command_before_result env this_thread s
  | .op_after_command_after_result, s =>
    after_command_after_result env this_thread s

/-- One command without statements: the three command checkpoints in their
order, with nobody else touching the session or its transaction in between.
The value is the result of `before_command`. -/
def command_round_trip (env : environment) (fuel this_thread : Nat) :
    M Int := do
  let r ← before_command env fuel this_thread
  after_command_before_result env this_thread
  after_command_after_result env this_thread
  return r

/-- The end of one command followed by the start of the next:
`after_command_after_result`, then `before_command`, with nobody else
touching the session or its transaction in between. -/
def after_result_then_before_command (env : environment)
    (fuel this_thread : Nat) : M Int := do
  after_command_after_result env this_thread
  before_command env fuel this_thread

/-! ## Unfolding lemmas -/

theorem bind_apply {α β : Type} (x : M α) (f : α → M β) (s : client_context) :
    (x >>= f) s = match x s with
      | .ok v s1 => f v s1
      | .fail e s1 => .fail e s1 := rfl

theorem pure_apply {α : Type} (v : α) (s : client_context) :
    (pure v : M α) s = .ok v s := rfl

theorem get_self_apply (s : client_context) : get_self s = .ok s s := rfl

theorem assert_true {c : Prop} [Decidable c] (f : fault) (s : client_context)
    (h : c) : assert c f s = .ok () s := by
  simp [assert, h]

theorem assert_false {c : Prop} [Decidable c] (f : fault) (s : client_context)
    (h : ¬ c) : assert c f s = .fail f s := by
  simp [assert, h]

/-- The busy-wait loop is left at once when the transaction is not in
`s_aborting`. -/
theorem wait_while_aborting_ready (env : environment) (fuel turn : Nat)
    (s : client_context) (h : s.transaction_.state_ ≠ .s_aborting) :
    wait_while_aborting env fuel turn s = .ok () s := by
  cases fuel <;> simp [wait_while_aborting, h]

/-- The busy-wait loop touches nothing but the transaction: it either ends
with a transaction that is not in `s_aborting`, or it is still waiting on a
transaction that is. -/
theorem wait_while_aborting_frame (env : environment) :
    ∀ (fuel turn : Nat) (s : client_context), ∃ t : transaction_context,
      (wait_while_aborting env fuel turn s =
          .ok () { s with transaction_ := t } ∧ t.state_ ≠ .s_aborting) ∨
      (wait_while_aborting env fuel turn s =
          .fail .still_waiting { s with transaction_ := t } ∧
        t.state_ = .s_aborting) := by
  intro fuel
  induction fuel with
  | zero =>
    intro turn s
    refine ⟨s.transaction_, ?_⟩
    by_cases h : s.transaction_.state_ = .s_aborting
    · right; simp [wait_while_aborting, h]
    · left; simp [wait_while_aborting, h]
  | succ n ih =>
    intro turn s
    by_cases h : s.transaction_.state_ = .s_aborting
    · obtain ⟨t, ht⟩ := ih (turn + 1)
        { s with transaction_ := env.foreign turn s.transaction_ }
      refine ⟨t, ?_⟩
      simpa [wait_while_aborting, h] using ht
    · exact ⟨s.transaction_, Or.inl (by simp [wait_while_aborting, h])⟩

/-- Once the busy-wait loop has ended, `before_command` goes on as a call
that finds the transaction as the loop left it. -/
theorem before_command_after_wait (env : environment)
    (fuel this_thread : Nat) (s : client_context) (t : transaction_context)
    (hidle : s.state_ = .s_idle)
    (hsync : s.server_context_.rollback_mode_ = .rm_sync)
    (hw : wait_while_aborting env fuel 0 s =
      .ok () { s with transaction_ := t })
    (ht : t.state_ ≠ .s_aborting) :
    before_command env fuel this_thread s =
      before_command env 0 this_thread { s with transaction_ := t } := by
  obtain ⟨tid, st, err, tx, ⟨mode⟩, ac, tr⟩ := s
  simp only at hidle hsync hw
  subst hidle hsync
  have hw0 := wait_while_aborting_ready env 0 0
    ⟨tid, .s_idle, err, t, ⟨.rm_sync⟩, ac, tr⟩ ht
  simp [before_command, bind_apply, get_self_apply, assert, hw, hw0]

/-- While the busy-wait loop has not ended, neither has `before_command`. -/
theorem before_command_still_waiting (env : environment)
    (fuel this_thread : Nat) (s s1 : client_context)
    (hidle : s.state_ = .s_idle)
    (hsync : s.server_context_.rollback_mode_ = .rm_sync)
    (hw : wait_while_aborting env fuel 0 s = .fail .still_waiting s1) :
    before_command env fuel this_thread s = .fail .still_waiting s1 := by
  obtain ⟨tid, st, err, tx, ⟨mode⟩, ac, tr⟩ := s
  simp only at hidle hsync hw
  subst hidle hsync
  simp [before_command, bind_apply, get_self_apply, assert, hw]

/-! ## The transition table -/

/-- C1: called by the owning thread with the lock held, `state(lock, target)`
succeeds and sets the lifecycle state to `target` exactly for the pairs
idle/exec, idle/quit, exec/result, result/idle and result/quit; for every
other pair it throws the runtime error and leaves the object as it was. -/
theorem state_follows_transition_table (s : client_context)
    (this_thread : Nat) (target : client_state)
    (hthread : this_thread = s.thread_id_) :
    ((∃ s1, state this_thread true target s = .ok () s1 ∧ s1.state_ = target) ↔
      (s.state_, target) ∈
        [(client_state.s_idle, client_state.s_exec),
         (client_state.s_idle, client_state.s_quit),
         (client_state.s_exec, client_state.s_result),
         (client_state.s_result, client_state.s_idle),
         (client_state.s_result, client_state.s_quit)]) ∧
    ((s.state_, target) ∈
        [(client_state.s_idle, client_state.s_exec),
         (client_state.s_idle, client_state.s_quit),
         (client_state.s_exec, client_state.s_result),
         (client_state.s_result, client_state.s_idle),
         (client_state.s_result, client_state.s_quit)] →
      state this_thread true target s =
        .ok () { s with state_ := target,
                        trace := s.trace ++ [.ev_state target] }) ∧
    ((s.state_, target) ∉
        [(client_state.s_idle, client_state.s_exec),
         (client_state.s_idle, client_state.s_quit),
         (client_state.s_exec, client_state.s_result),
         (client_state.s_result, client_state.s_idle),
         (client_state.s_result, client_state.s_quit)] →
      state this_thread true target s =
        .fail (.unallowed_state_transition s.state_ target) s) := by
  subst hthread
  obtain ⟨tid, st, err, tx, srv, ac, tr⟩ := s
  cases st <;> cases target <;>
    simp [state, bind_apply, get_self_apply, assert, set_state,
      throw_runtime_error, allowed_at, allowed, client_state.toNat]

/-- Witness of C1 at the transition idle to exec of a session of thread 7. -/
theorem state_follows_transition_table_witness :
    7 = (session .s_idle .e_success ⟨false, .s_executing⟩ .rm_async
          false).thread_id_ ∧
    state 7 true .s_exec
        (session .s_idle .e_success ⟨false, .s_executing⟩ .rm_async false) =
      .ok () { session .s_exec .e_success ⟨false, .s_executing⟩ .rm_async
                 false with trace := [.ev_state .s_exec] } :=
  ⟨rfl, (state_follows_transition_table
    (session .s_idle .e_success ⟨false, .s_executing⟩ .rm_async false) 7
    .s_exec rfl).2.1 (by decide)⟩

/-! ## The error slot -/

/-- C3: for `override_error` called by the owning thread, setting
`e_success` over an error that is set throws the runtime error and leaves
the object unchanged; setting `e_success` when no error is set returns and
changes no field of the session; setting any other kind returns and leaves
`current_error_` equal to that kind, whatever it was before. -/
theorem override_error_policy (s : client_context) (this_thread : Nat)
    (error : client_error) (hthread : this_thread = s.thread_id_) :
    (error = .e_success → s.current_error_ ≠ .e_success →
      override_error this_thread error s =
        .fail .overriding_error_with_success s) ∧
    (error = .e_success → s.current_error_ = .e_success →
      override_error this_thread error s =
        .ok () { s with trace := s.trace ++ [.ev_current_error .e_success] }) ∧
    (error ≠ .e_success →
      override_error this_thread error s =
        .ok () { s with current_error_ := error,
                        trace := s.trace ++ [.ev_current_error error] }) := by
  subst hthread
  obtain ⟨tid, st, err, tx, srv, ac, tr⟩ := s
  refine ⟨?_, ?_, ?_⟩
  · intro h1 h2
    simp only at h2
    simp [override_error, bind_apply, get_self_apply, assert,
      throw_runtime_error, h1, h2]
  · intro h1 h2
    simp only at h2
    simp [override_error, bind_apply, get_self_apply, assert,
      throw_runtime_error, set_current_error, pure_apply, h1, h2]
  · intro h1
    simp [override_error, bind_apply, get_self_apply, assert,
      throw_runtime_error, set_current_error, pure_apply, h1]

/-- Witness of C3: thread 7 replaces the error kind 3 by the deadlock
error. -/
theorem override_error_policy_witness :
    7 = (session .s_exec (.e_other 3) ⟨false, .s_executing⟩ .rm_async
          false).thread_id_ ∧
    override_error 7 .e_deadlock_error
        (session .s_exec (.e_other 3) ⟨false, .s_executing⟩ .rm_async false) =
      .ok () { session .s_exec .e_deadlock_error ⟨false, .s_executing⟩
                 .rm_async false with
               trace := [.ev_current_error .e_deadlock_error] } :=
  ⟨rfl, (override_error_policy
    (session .s_exec (.e_other 3) ⟨false, .s_executing⟩ .rm_async false) 7
    .e_deadlock_error rfl).2.2 (by decide)⟩

/-! ## The statement checkpoints -/

/-- C9: in every state of the session `before_statement` returns, its
result is 1 exactly when the transaction is active and in `s_must_abort`
and 0 otherwise, and the object (lifecycle state, error, transaction and
log of calls) is left as it was. -/
theorem before_statement_fails_fast (s : client_context) :
    ∃ r : Int, before_statement s = .ok r s ∧
      (r = 1 ↔ (s.transaction_.active_ = true ∧
                s.transaction_.state_ = .s_must_abort)) ∧
      (r = 0 ↔ ¬ (s.transaction_.active_ = true ∧
                  s.transaction_.state_ = .s_must_abort)) := by
  by_cases h : s.transaction_.active_ = true ∧
      s.transaction_.state_ = .s_must_abort
  · refine ⟨1, ?_, by simp [h], by simp [h]⟩
    simp [before_statement, bind_apply, get_self_apply, pure_apply, h]
  · refine ⟨0, ?_, by simp [h], by simp [h]⟩
    simp [before_statement, bind_apply, get_self_apply, pure_apply, h]

/-- C4: for a session in `s_exec`, `after_statement` returns after one call
of the transaction's `after_statement`; the result is `asr_may_retry`
exactly when the error is the deadlock error and autocommit is on,
`asr_error` exactly when it is the deadlock error and autocommit is off, and
`asr_success` exactly when the error is anything else. -/
theorem after_statement_result_policy (env : environment)
    (s : client_context) (hstate : s.state_ = .s_exec) :
    ∃ r, after_statement env s =
        .ok r { s with transaction_ := env.after_statement s.transaction_,
                       trace := s.trace ++
                         [.ev_transaction_after_statement] } ∧
      (r = .asr_may_retry ↔
        (s.current_error_ = .e_deadlock_error ∧ s.is_autocommit_ = true)) ∧
      (r = .asr_error ↔
        (s.current_error_ = .e_deadlock_error ∧ s.is_autocommit_ = false)) ∧
      (r = .asr_success ↔ s.current_error_ ≠ .e_deadlock_error) := by
  obtain ⟨tid, st, err, tx, srv, ac, tr⟩ := s
  simp only at hstate
  subst hstate
  by_cases he : err = .e_deadlock_error
  · cases ac
    · refine ⟨.asr_error, ?_, by simp [he], by simp [he], by simp [he]⟩
      simp [after_statement, bind_apply, get_self_apply, pure_apply, assert,
        transaction_after_statement, he]
    · refine ⟨.asr_may_retry, ?_, by simp [he], by simp [he], by simp [he]⟩
      simp [after_statement, bind_apply, get_self_apply, pure_apply, assert,
        transaction_after_statement, he]
  · refine ⟨.asr_success, ?_, by simp [he], by simp [he], by simp [he]⟩
    simp [after_statement, bind_apply, get_self_apply, pure_apply, assert,
      transaction_after_statement, he]

/-- Witness of C4: the deadlock error with autocommit on gives
`asr_may_retry`. -/
theorem after_statement_result_policy_witness :
    (session .s_exec .e_deadlock_error ⟨false, .s_aborted⟩ .rm_async
       true).state_ = .s_exec ∧
    ∃ r, after_statement mock_environment
        (session .s_exec .e_deadlock_error ⟨false, .s_aborted⟩ .rm_async
          true) =
        .ok r { session .s_exec .e_deadlock_error ⟨false, .s_aborted⟩
                  .rm_async true with
                transaction_ := mock_environment.after_statement
                  ⟨false, .s_aborted⟩,
                trace := [.ev_transaction_after_statement] } ∧
      r = .asr_may_retry :=
  ⟨rfl, by
    obtain ⟨r, h1, h2, _, _⟩ := after_statement_result_policy mock_environment
      (session .s_exec .e_deadlock_error ⟨false, .s_aborted⟩ .rm_async true)
      rfl
    exact ⟨r, h1, h2.mpr ⟨rfl, rfl⟩⟩⟩

/-! ## The command checkpoints after execution -/

/-- C2: for a session in `s_exec` whose transaction is active and in
`s_must_abort`, whatever the error was: whenever
`after_command_before_result` returns, the transaction is in `s_aborted`
(no longer `s_must_abort`), the error is the deadlock error, the lifecycle
state is `s_result`, and the call has set the error, called `rollback` once,
then the transaction's `after_statement` once, then moved the state.  The
call does return when made by the owning thread and the rollback followed by
`after_statement` leaves the transaction in `s_aborted`. -/
theorem after_command_before_result_must_abort (env : environment)
    (s : client_context) (this_thread : Nat)
    (hstate : s.state_ = .s_exec)
    (hactive : s.transaction_.active_ = true)
    (hmust : s.transaction_.state_ = .s_must_abort) :
    (∀ s1, after_command_before_result env this_thread s = .ok () s1 →
      s1.transaction_.state_ = .s_aborted ∧
      s1.transaction_.state_ ≠ .s_must_abort ∧
      s1.current_error_ = .e_deadlock_error ∧
      s1.state_ = .s_result ∧
      s1.trace = s.trace ++
        [.ev_current_error .e_deadlock_error, .ev_rollback,
         .ev_transaction_after_statement, .ev_state .s_result]) ∧
    (this_thread = s.thread_id_ →
      (env.after_statement (env.rollback s.transaction_)).state_ =
        .s_aborted →
      after_command_before_result env this_thread s =
        .ok () { s with
          state_ := .s_result,
          current_error_ := .e_deadlock_error,
          transaction_ := env.after_statement (env.rollback s.transaction_),
          trace := s.trace ++
            [.ev_current_error .e_deadlock_error, .ev_rollback,
             .ev_transaction_after_statement, .ev_state .s_result] }) := by
  obtain ⟨tid, st, err, tx, srv, ac, tr⟩ := s
  simp only at hstate hactive hmust
  subst hstate
  by_cases ht : this_thread = tid
  · by_cases hc : (env.after_statement (env.rollback tx)).state_ = .s_aborted
    · have h : after_command_before_result env this_thread
          ⟨tid, .s_exec, err, tx, srv, ac, tr⟩ =
          .ok () ⟨tid, .s_result, .e_deadlock_error,
            env.after_statement (env.rollback tx), srv, ac,
            tr ++ [.ev_current_error .e_deadlock_error, .ev_rollback,
              .ev_transaction_after_statement, .ev_state .s_result]⟩ := by
        simp [after_command_before_result, bind_apply, get_self_apply,
          pure_apply, assert, override_error, throw_runtime_error,
          set_current_error, rollback, transaction_after_statement, state,
          set_state, allowed_at, allowed, client_state.toNat, hactive, hmust,
          ht, hc]
      refine ⟨?_, fun _ _ => h⟩
      intro s1 h1
      rw [h] at h1
      cases h1
      simp [hc]
    · refine ⟨?_, fun _ h => absurd h hc⟩
      intro s1 h1
      simp [after_command_before_result, bind_apply, get_self_apply,
        pure_apply, assert, override_error, throw_runtime_error,
        set_current_error, rollback, transaction_after_statement,
        hactive, hmust, ht, hc] at h1
  · refine ⟨?_, fun h _ => absurd h ht⟩
    intro s1 h1
    simp [after_command_before_result, bind_apply, get_self_apply,
      pure_apply, assert, override_error, hactive, hmust, ht] at h1

/-- Witness of C2: scenario B of the specification, with a prior error of
kind 3. -/
theorem after_command_before_result_must_abort_witness :
    after_command_before_result mock_environment 7
        (session .s_exec (.e_other 3) ⟨true, .s_must_abort⟩ .rm_async false) =
      .ok () { session .s_result .e_deadlock_error ⟨false, .s_aborted⟩
                 .rm_async false with
               trace := [.ev_current_error .e_deadlock_error, .ev_rollback,
                 .ev_transaction_after_statement, .ev_state .s_result] } :=
  (after_command_before_result_must_abort mock_environment
    (session .s_exec (.e_other 3) ⟨true, .s_must_abort⟩ .rm_async false) 7
    rfl rfl rfl).2 rfl rfl

/-- C7: for a session in `s_result` whose transaction is not active,
whatever the error was: whenever `after_command_after_result` returns, the
error is `e_success`, the lifecycle state is `s_idle`, and the call has only
written the error and the state (no `rollback`, no `after_statement`).  The
call does return when made by the owning thread with the transaction not in
`s_aborting`, the invariant the code asserts on entry. -/
theorem after_command_after_result_inactive (env : environment)
    (s : client_context) (this_thread : Nat)
    (hstate : s.state_ = .s_result)
    (hinactive : s.transaction_.active_ = false) :
    (∀ s1, after_command_after_result env this_thread s = .ok () s1 →
      s1.current_error_ = .e_success ∧
      s1.state_ = .s_idle ∧
      s1.transaction_ = s.transaction_ ∧
      s1.trace = s.trace ++
        [.ev_current_error .e_success, .ev_state .s_idle]) ∧
    (this_thread = s.thread_id_ →
      s.transaction_.state_ ≠ .s_aborting →
      after_command_after_result env this_thread s =
        .ok () { s with
          state_ := .s_idle,
          current_error_ := .e_success,
          trace := s.trace ++
            [.ev_current_error .e_success, .ev_state .s_idle] }) := by
  obtain ⟨tid, st, err, tx, srv, ac, tr⟩ := s
  simp only at hstate hinactive
  subst hstate
  by_cases ht : this_thread = tid
  · by_cases hc : tx.state_ = .s_aborting
    · refine ⟨?_, fun _ h => absurd hc h⟩
      intro s1 h1
      simp [after_command_after_result, bind_apply, get_self_apply,
        pure_apply, assert, hc] at h1
    · have h : after_command_after_result env this_thread
          ⟨tid, .s_result, err, tx, srv, ac, tr⟩ =
          .ok () ⟨tid, .s_idle, .e_success, tx, srv, ac,
            tr ++ [.ev_current_error .e_success, .ev_state .s_idle]⟩ := by
        simp [after_command_after_result, bind_apply, get_self_apply,
          pure_apply, assert, set_current_error, state, set_state,
          allowed_at, allowed, client_state.toNat, hinactive, ht, hc]
      refine ⟨?_, fun _ _ => h⟩
      intro s1 h1
      rw [h] at h1
      cases h1
      simp
  · refine ⟨?_, fun h _ => absurd h ht⟩
    intro s1 h1
    by_cases hc : tx.state_ = .s_aborting
    · simp [after_command_after_result, bind_apply, get_self_apply,
        pure_apply, assert, hc] at h1
    · simp [after_command_after_result, bind_apply, get_self_apply,
        pure_apply, assert, set_current_error, state, hinactive, ht, hc] at h1

/-- Witness of C7: scenario C of the specification, with the deadlock error
set before the call. -/
theorem after_command_after_result_inactive_witness :
    after_command_after_result mock_environment 7
        (session .s_result .e_deadlock_error ⟨false, .s_aborted⟩ .rm_async
          false) =
      .ok () { session .s_idle .e_success ⟨false, .s_aborted⟩ .rm_async
                 false with
               trace := [.ev_current_error .e_success, .ev_state .s_idle] } :=
  (after_command_after_result_inactive mock_environment
    (session .s_result .e_deadlock_error ⟨false, .s_aborted⟩ .rm_async false)
    7 rfl rfl).2 rfl (by decide)

/-- C8: for a session in `s_result` whose transaction is active and in
`s_must_abort`, whatever the error was: whenever
`after_command_after_result` returns, it has called `rollback`, then set the
error to the deadlock error, then moved the lifecycle state to `s_idle`, and
the transaction is in `s_aborted`.  The call does return when made by the
owning thread and the rollback leaves the transaction in `s_aborted`. -/
theorem after_command_after_result_must_abort (env : environment)
    (s : client_context) (this_thread : Nat)
    (hstate : s.state_ = .s_result)
    (hactive : s.transaction_.active_ = true)
    (hmust : s.transaction_.state_ = .s_must_abort) :
    (∀ s1, after_command_after_result env this_thread s = .ok () s1 →
      s1.current_error_ = .e_deadlock_error ∧
      s1.state_ = .s_idle ∧
      s1.transaction_ = env.rollback s.transaction_ ∧
      s1.transaction_.state_ = .s_aborted ∧
      s1.trace = s.trace ++
        [.ev_rollback, .ev_current_error .e_deadlock_error,
         .ev_state .s_idle]) ∧
    (this_thread = s.thread_id_ →
      (env.rollback s.transaction_).state_ = .s_aborted →
      after_command_after_result env this_thread s =
        .ok () { s with
          state_ := .s_idle,
          current_error_ := .e_deadlock_error,
          transaction_ := env.rollback s.transaction_,
          trace := s.trace ++
            [.ev_rollback, .ev_current_error .e_deadlock_error,
             .ev_state .s_idle] }) := by
  obtain ⟨tid, st, err, tx, srv, ac, tr⟩ := s
  simp only at hstate hactive hmust
  subst hstate
  by_cases hc : (env.rollback tx).state_ = .s_aborted
  · by_cases ht : this_thread = tid
    · have h : after_command_after_result env this_thread
          ⟨tid, .s_result, err, tx, srv, ac, tr⟩ =
          .ok () ⟨tid, .s_idle, .e_deadlock_error, env.rollback tx, srv, ac,
            tr ++ [.ev_rollback, .ev_current_error .e_deadlock_error,
              .ev_state .s_idle]⟩ := by
        simp [after_command_after_result, bind_apply, get_self_apply,
          pure_apply, assert, override_error, throw_runtime_error,
          set_current_error, rollback, state, set_state, allowed_at, allowed,
          client_state.toNat, hactive, hmust, ht, hc]
      refine ⟨?_, fun _ _ => h⟩
      intro s1 h1
      rw [h] at h1
      cases h1
      simp [hc]
    · refine ⟨?_, fun h _ => absurd h ht⟩
      intro s1 h1
      simp [after_command_after_result, bind_apply, get_self_apply,
        pure_apply, assert, override_error, rollback, hactive, hmust, ht,
        hc] at h1
  · refine ⟨?_, fun _ h => absurd h hc⟩
    intro s1 h1
    simp [after_command_after_result, bind_apply, get_self_apply,
      pure_apply, assert, rollback, hactive, hmust, hc] at h1

/-- Witness of C8: a brute-force abort that arrived after the result was
sent, with a prior error of kind 3. -/
theorem after_command_after_result_must_abort_witness :
    after_command_after_result mock_environment 7
        (session .s_result (.e_other 3) ⟨true, .s_must_abort⟩ .rm_async
          false) =
      .ok () { session .s_idle .e_deadlock_error ⟨true, .s_aborted⟩ .rm_async
                 false with
               trace := [.ev_rollback, .ev_current_error .e_deadlock_error,
                 .ev_state .s_idle] } :=
  (after_command_after_result_must_abort mock_environment
    (session .s_result (.e_other 3) ⟨true, .s_must_abort⟩ .rm_async false)
    7 rfl rfl rfl).2 rfl rfl

/-! ## The command checkpoint before execution -/

/-- A call of `before_command` outside `s_idle` fails its precondition. -/
theorem before_command_not_idle (env : environment) (fuel this_thread : Nat)
    (s : client_context) (hidle : s.state_ ≠ .s_idle) :
    before_command env fuel this_thread s =
      .fail (.wrong_state .s_idle) s := by
  simp [before_command, bind_apply, get_self_apply, assert, hidle]

/-- A call of `before_command` that does not have to wait and is made by
another thread than the owner fails the owner check of `state`. -/
theorem before_command_not_owner (env : environment) (fuel this_thread : Nat)
    (s : client_context) (hidle : s.state_ = .s_idle)
    (hready : s.server_context_.rollback_mode_ = .rm_sync →
      s.transaction_.state_ ≠ .s_aborting)
    (hthread : this_thread ≠ s.thread_id_) :
    before_command env fuel this_thread s = .fail .wrong_thread s := by
  have hw := wait_while_aborting_ready env fuel 0 s
  by_cases hm : s.server_context_.rollback_mode_ = .rm_sync
  · simp [before_command, bind_apply, get_self_apply, assert, state, hidle,
      hm, hw (hready hm), hthread]
  · simp [before_command, bind_apply, get_self_apply, pure_apply, assert,
      state, hidle, hm, hthread]

/-- A call of `before_command` by the owner that does not have to wait and
finds the transaction inactive returns 0, having only moved the lifecycle
state. -/
theorem before_command_inactive (env : environment) (fuel this_thread : Nat)
    (s : client_context) (hidle : s.state_ = .s_idle)
    (hready : s.server_context_.rollback_mode_ = .rm_sync →
      s.transaction_.state_ ≠ .s_aborting)
    (hthread : this_thread = s.thread_id_)
    (hinactive : s.transaction_.active_ = false) :
    before_command env fuel this_thread s =
      .ok 0 { s with state_ := .s_exec,
                     trace := s.trace ++ [.ev_state .s_exec] } := by
  have hw := wait_while_aborting_ready env fuel 0 s
  by_cases hm : s.server_context_.rollback_mode_ = .rm_sync
  · simp [before_command, bind_apply, get_self_apply, pure_apply, assert,
      state, set_state, allowed_at, allowed, client_state.toNat, hidle,
      hm, hw (hready hm), hthread, hinactive]
  · simp [before_command, bind_apply, get_self_apply, pure_apply, assert,
      state, set_state, allowed_at, allowed, client_state.toNat, hidle,
      hm, hthread, hinactive]

/-- A call of `before_command` by the owner that does not have to wait and
finds the transaction active in `s_executing` returns 0, having only moved
the lifecycle state. -/
theorem before_command_executing (env : environment) (fuel this_thread : Nat)
    (s : client_context) (hidle : s.state_ = .s_idle)
    (hthread : this_thread = s.thread_id_)
    (hactive : s.transaction_.active_ = true)
    (hexec : s.transaction_.state_ = .s_executing) :
    before_command env fuel this_thread s =
      .ok 0 { s with state_ := .s_exec,
                     trace := s.trace ++ [.ev_state .s_exec] } := by
  have hw := wait_while_aborting_ready env fuel 0 s (by simp [hexec])
  by_cases hm : s.server_context_.rollback_mode_ = .rm_sync
  · simp [before_command, bind_apply, get_self_apply, pure_apply, assert,
      state, set_state, allowed_at, allowed, client_state.toNat, hidle,
      hm, hw, hthread, hactive, hexec]
  · simp [before_command, bind_apply, get_self_apply, pure_apply, assert,
      state, set_state, allowed_at, allowed, client_state.toNat, hidle,
      hm, hthread, hactive, hexec]

/-- A call of `before_command` by the owner that finds the transaction
active in `s_aborted` sets the deadlock error, calls the transaction's
`after_statement` and returns 1, provided the transaction is then no longer
active; otherwise the assertion of line 80 fails. -/
theorem before_command_aborted (env : environment) (fuel this_thread : Nat)
    (s : client_context) (hidle : s.state_ = .s_idle)
    (hthread : this_thread = s.thread_id_)
    (hactive : s.transaction_.active_ = true)
    (haborted : s.transaction_.state_ = .s_aborted) :
    before_command env fuel this_thread s =
      if (env.after_statement s.transaction_).active_ = false then
        .ok 1 { s with
          state_ := .s_exec,
          current_error_ := .e_deadlock_error,
          transaction_ := env.after_statement s.transaction_,
          trace := s.trace ++
            [.ev_state .s_exec, .ev_current_error .e_deadlock_error,
             .ev_transaction_after_statement] }
      else
        .fail (.transaction_assert 80) { s with
          state_ := .s_exec,
          current_error_ := .e_deadlock_error,
          transaction_ := env.after_statement s.transaction_,
          trace := s.trace ++
            [.ev_state .s_exec, .ev_current_error .e_deadlock_error,
             .ev_transaction_after_statement] } := by
  have hw := wait_while_aborting_ready env fuel 0 s (by simp [haborted])
  by_cases hm : s.server_context_.rollback_mode_ = .rm_sync <;>
  by_cases hc : (env.after_statement s.transaction_).active_ = false <;>
  simp [before_command, bind_apply, get_self_apply, pure_apply, assert,
    override_error, throw_runtime_error, set_current_error,
    transaction_after_statement, state, set_state, allowed_at, allowed,
    client_state.toNat, hidle, hm, hw, hthread, hactive, haborted, hc]

/-- A call of `before_command` by the owner in asynchronous rollback mode
that finds the transaction active in `s_must_abort` sets the deadlock error,
calls `rollback` and the transaction's `after_statement` and returns 1,
provided the transaction is then in `s_aborted` and no longer active;
otherwise the assertion of line 64 or of line 66 fails. -/
theorem before_command_must_abort (env : environment) (fuel this_thread : Nat)
    (s : client_context) (hidle : s.state_ = .s_idle)
    (hthread : this_thread = s.thread_id_)
    (hactive : s.transaction_.active_ = true)
    (hmust : s.transaction_.state_ = .s_must_abort)
    (hasync : s.server_context_.rollback_mode_ = .rm_async) :
    before_command env fuel this_thread s =
      if (env.after_statement (env.rollback s.transaction_)).state_ =
          .s_aborted then
        if (env.after_statement (env.rollback s.transaction_)).active_ =
            false then
          .ok 1 { s with
            state_ := .s_exec,
            current_error_ := .e_deadlock_error,
            transaction_ := env.after_statement (env.rollback s.transaction_),
            trace := s.trace ++
              [.ev_state .s_exec, .ev_current_error .e_deadlock_error,
               .ev_rollback, .ev_transaction_after_statement] }
        else
          .fail (.transaction_assert 66) { s with
            state_ := .s_exec,
            current_error_ := .e_deadlock_error,
            transaction_ := env.after_statement (env.rollback s.transaction_),
            trace := s.trace ++
              [.ev_state .s_exec, .ev_current_error .e_deadlock_error,
               .ev_rollback, .ev_transaction_after_statement] }
      else
        .fail (.transaction_assert 64) { s with
          state_ := .s_exec,
          current_error_ := .e_deadlock_error,
          transaction_ := env.after_statement (env.rollback s.transaction_),
          trace := s.trace ++
            [.ev_state .s_exec, .ev_current_error .e_deadlock_error,
             .ev_rollback, .ev_transaction_after_statement] } := by
  by_cases hc : (env.after_statement (env.rollback s.transaction_)).state_ =
      .s_aborted <;>
  by_cases hd : (env.after_statement (env.rollback s.transaction_)).active_ =
      false <;>
  simp [before_command, bind_apply, get_self_apply, pure_apply, assert,
    override_error, throw_runtime_error, set_current_error, rollback,
    transaction_after_statement, state, set_state, allowed_at, allowed,
    client_state.toNat, hidle, hasync, hthread, hactive, hmust, hc, hd]

/-- A call of `before_command` by the owner that does not have to wait and
finds the transaction active in a state the code does not expect (anything
but `s_executing`, `s_aborted`, and `s_must_abort` in asynchronous mode)
fails the assertion of line 47 after the move to `s_exec`. -/
theorem before_command_unexpected (env : environment)
    (fuel this_thread : Nat) (s : client_context)
    (hidle : s.state_ = .s_idle)
    (hready : s.server_context_.rollback_mode_ = .rm_sync →
      s.transaction_.state_ ≠ .s_aborting)
    (hthread : this_thread = s.thread_id_)
    (hactive : s.transaction_.active_ = true)
    (hexec : s.transaction_.state_ ≠ .s_executing)
    (haborted : s.transaction_.state_ ≠ .s_aborted)
    (hmust : s.transaction_.state_ = .s_must_abort →
      s.server_context_.rollback_mode_ = .rm_sync) :
    before_command env fuel this_thread s =
      .fail (.transaction_assert 47)
        { s with state_ := .s_exec,
                 trace := s.trace ++ [.ev_state .s_exec] } := by
  have hw := wait_while_aborting_ready env fuel 0 s
  by_cases hm : s.server_context_.rollback_mode_ = .rm_sync
  · simp [before_command, bind_apply, get_self_apply, pure_apply, assert,
      state, set_state, allowed_at, allowed, client_state.toNat, hidle,
      hm, hw (hready hm), hthread, hactive, hexec, haborted]
  · have hnm : s.transaction_.state_ ≠ .s_must_abort := fun h => hm (hmust h)
    simp [before_command, bind_apply, get_self_apply, pure_apply, assert,
      state, set_state, allowed_at, allowed, client_state.toNat, hidle,
      hm, hthread, hactive, hexec, haborted, hnm]

/-- C5: for a session in `s_idle` that meets the entry conditions of
`before_command` (transaction not in `s_aborting`; `s_must_abort` only in
asynchronous rollback mode): whenever the call returns, it returns 1 exactly
when the transaction was active and in `s_must_abort` or `s_aborted`;
whenever it returns 1, the error is the deadlock error, the lifecycle state
is `s_exec`, the transaction has gone through `after_statement` and is no
longer active, and `rollback` was called (once, before `after_statement`) in
the `s_must_abort` case and not at all in the `s_aborted` case.  In both
cases the call by the owning thread does return 1 when the collaborators
leave the transaction as the code asserts (aborted and no longer active). -/
theorem before_command_reports_failure (env : environment)
    (fuel this_thread : Nat) (s : client_context)
    (hidle : s.state_ = .s_idle)
    (hwait : s.transaction_.state_ ≠ .s_aborting)
    (hmode : s.transaction_.state_ = .s_must_abort →
      s.server_context_.rollback_mode_ = .rm_async) :
    (∀ r s1, before_command env fuel this_thread s = .ok r s1 →
      (r = 1 ↔ (s.transaction_.active_ = true ∧
        (s.transaction_.state_ = .s_must_abort ∨
         s.transaction_.state_ = .s_aborted)))) ∧
    (∀ s1, before_command env fuel this_thread s = .ok 1 s1 →
      s1.current_error_ = .e_deadlock_error ∧
      s1.state_ = .s_exec ∧
      s1.transaction_.active_ = false ∧
      (s.transaction_.state_ = .s_must_abort →
        s1.transaction_ = env.after_statement (env.rollback s.transaction_) ∧
        s1.trace = s.trace ++
          [.ev_state .s_exec, .ev_current_error .e_deadlock_error,
           .ev_rollback, .ev_transaction_after_statement]) ∧
      (s.transaction_.state_ = .s_aborted →
        s1.transaction_ = env.after_statement s.transaction_ ∧
        s1.trace = s.trace ++
          [.ev_state .s_exec, .ev_current_error .e_deadlock_error,
           .ev_transaction_after_statement])) ∧
    (this_thread = s.thread_id_ → s.transaction_.active_ = true →
      s.transaction_.state_ = .s_must_abort →
      (env.after_statement (env.rollback s.transaction_)).state_ =
        .s_aborted →
      (env.after_statement (env.rollback s.transaction_)).active_ = false →
      ∃ s1, before_command env fuel this_thread s = .ok 1 s1) ∧
    (this_thread = s.thread_id_ → s.transaction_.active_ = true →
      s.transaction_.state_ = .s_aborted →
      (env.after_statement s.transaction_).active_ = false →
      ∃ s1, before_command env fuel this_thread s = .ok 1 s1) := by
  have hready : s.server_context_.rollback_mode_ = .rm_sync →
      s.transaction_.state_ ≠ .s_aborting := fun _ => hwait
  by_cases hth : this_thread = s.thread_id_
  swap
  · have hbc := before_command_not_owner env fuel this_thread s hidle hready
      hth
    refine ⟨?_, ?_, fun h => absurd h hth, fun h => absurd h hth⟩
    · intro r s1 h
      rw [hbc] at h
      cases h
    · intro s1 h
      rw [hbc] at h
      cases h
  by_cases hact : s.transaction_.active_ = true
  swap
  · have hbc := before_command_inactive env fuel this_thread s hidle hready
      hth (by simpa using hact)
    refine ⟨?_, ?_, fun _ h => absurd h hact, fun _ h => absurd h hact⟩
    · intro r s1 h
      rw [hbc] at h
      cases h
      simp [hact]
    · intro s1 h
      rw [hbc] at h
      cases h
  by_cases hex : s.transaction_.state_ = .s_executing
  · have hbc := before_command_executing env fuel this_thread s hidle hth
      hact hex
    refine ⟨?_, ?_, ?_, ?_⟩
    · intro r s1 h
      rw [hbc] at h
      cases h
      simp [hex]
    · intro s1 h
      rw [hbc] at h
      cases h
    · intro _ _ h
      simp [hex] at h
    · intro _ _ h
      simp [hex] at h
  by_cases hab : s.transaction_.state_ = .s_aborted
  · have hbc := before_command_aborted env fuel this_thread s hidle hth
      hact hab
    by_cases hc : (env.after_statement s.transaction_).active_ = false
    · rw [if_pos hc] at hbc
      refine ⟨?_, ?_, ?_, fun _ _ _ _ => ⟨_, hbc⟩⟩
      · intro r s1 h
        rw [hbc] at h
        cases h
        simp [hact, hab]
      · intro s1 h
        rw [hbc] at h
        cases h
        simp [hc, hab]
      · intro _ _ h
        simp [hab] at h
    · rw [if_neg hc] at hbc
      refine ⟨?_, ?_, ?_, fun _ _ _ h => absurd h hc⟩
      · intro r s1 h
        rw [hbc] at h
        cases h
      · intro s1 h
        rw [hbc] at h
        cases h
      · intro _ _ h
        simp [hab] at h
  by_cases hmu : s.transaction_.state_ = .s_must_abort
  · have hbc := before_command_must_abort env fuel this_thread s hidle hth
      hact hmu (hmode hmu)
    by_cases hc : (env.after_statement (env.rollback s.transaction_)).state_ =
        .s_aborted
    · by_cases hd :
          (env.after_statement (env.rollback s.transaction_)).active_ = false
      · rw [if_pos hc, if_pos hd] at hbc
        refine ⟨?_, ?_, fun _ _ _ _ _ => ⟨_, hbc⟩, fun _ _ h => absurd h hab⟩
        · intro r s1 h
          rw [hbc] at h
          cases h
          simp [hact, hmu]
        · intro s1 h
          rw [hbc] at h
          cases h
          simp [hd, hmu]
      · rw [if_pos hc, if_neg hd] at hbc
        refine ⟨?_, ?_, fun _ _ _ _ h => absurd h hd,
          fun _ _ h => absurd h hab⟩
        · intro r s1 h
          rw [hbc] at h
          cases h
        · intro s1 h
          rw [hbc] at h
          cases h
    · rw [if_neg hc] at hbc
      refine ⟨?_, ?_, fun _ _ _ h => absurd h hc, fun _ _ h => absurd h hab⟩
      · intro r s1 h
        rw [hbc] at h
        cases h
      · intro s1 h
        rw [hbc] at h
        cases h
  · have hbc := before_command_unexpected env fuel this_thread s hidle hready
      hth hact hex hab (fun h => absurd h hmu)
    refine ⟨?_, ?_, fun _ _ h => absurd h hmu, fun _ _ h => absurd h hab⟩
    · intro r s1 h
      rw [hbc] at h
      cases h
    · intro s1 h
      rw [hbc] at h
      cases h

/-- Witness of C5: in asynchronous mode, a session of thread 7 whose
transaction was flagged `s_must_abort` while it was idle. -/
theorem before_command_reports_failure_witness :
    ∃ s1, before_command mock_environment 0 7
      (session .s_idle .e_success ⟨true, .s_must_abort⟩ .rm_async false) =
        .ok 1 s1 :=
  (before_command_reports_failure mock_environment 0 7
    (session .s_idle .e_success ⟨true, .s_must_abort⟩ .rm_async false)
    rfl (by decide) (fun _ => rfl)).2.2.1 rfl rfl rfl rfl rfl

/-- For a call of `before_command` that does not have to wait: if it
returns 0, it has moved the lifecycle state to `s_exec` and done nothing
else. -/
theorem before_command_proceed_ready (env : environment)
    (fuel this_thread : Nat) (s s1 : client_context)
    (hready : s.server_context_.rollback_mode_ = .rm_sync →
      s.transaction_.state_ ≠ .s_aborting)
    (h : before_command env fuel this_thread s = .ok 0 s1) :
    s1 = { s with state_ := .s_exec,
                  trace := s.trace ++ [.ev_state .s_exec] } := by
  by_cases hidle : s.state_ = .s_idle
  swap
  · rw [before_command_not_idle env fuel this_thread s hidle] at h
    cases h
  by_cases hth : this_thread = s.thread_id_
  swap
  · rw [before_command_not_owner env fuel this_thread s hidle hready hth] at h
    cases h
  by_cases hact : s.transaction_.active_ = true
  swap
  · rw [before_command_inactive env fuel this_thread s hidle hready hth
      (by simpa using hact)] at h
    cases h
    rfl
  by_cases hex : s.transaction_.state_ = .s_executing
  · rw [before_command_executing env fuel this_thread s hidle hth hact hex]
      at h
    cases h
    rfl
  by_cases hab : s.transaction_.state_ = .s_aborted
  · rw [before_command_aborted env fuel this_thread s hidle hth hact hab] at h
    split at h <;> cases h
  by_cases hmu : s.transaction_.state_ = .s_must_abort
  · by_cases hm : s.server_context_.rollback_mode_ = .rm_async
    · rw [before_command_must_abort env fuel this_thread s hidle hth hact hmu
        hm] at h
      split at h
      · split at h <;> cases h
      · cases h
    · have hs : s.server_context_.rollback_mode_ = .rm_sync := by
        cases hr : s.server_context_.rollback_mode_
        · exact absurd hr hm
        · rfl
      rw [before_command_unexpected env fuel this_thread s hidle hready hth
        hact hex hab (fun _ => hs)] at h
      cases h
  · rw [before_command_unexpected env fuel this_thread s hidle hready hth
      hact hex hab (fun h => absurd h hmu)] at h
    cases h

/-- C6: whenever `before_command` returns 0 (whatever the session, the
thread, the rollback mode and the length of the wait), it has moved the
lifecycle state to `s_exec`, has left the error as it was, and has called
neither `rollback` nor the transaction's `after_statement`: the move is the
only entry added to the log.  For a session in `s_idle` whose transaction is
not active, the call by the owning thread does return 0, with nothing but
the lifecycle state changed, as soon as it does not have to wait (in
synchronous mode, the transaction is not in `s_aborting`). -/
theorem before_command_proceeds (env : environment)
    (fuel this_thread : Nat) (s : client_context) :
    (∀ s1, before_command env fuel this_thread s = .ok 0 s1 →
      s1.state_ = .s_exec ∧
      s1.current_error_ = s.current_error_ ∧
      s1.trace = s.trace ++ [.ev_state .s_exec]) ∧
    (s.state_ = .s_idle → this_thread = s.thread_id_ →
      s.transaction_.active_ = false →
      (s.server_context_.rollback_mode_ = .rm_sync →
        s.transaction_.state_ ≠ .s_aborting) →
      before_command env fuel this_thread s =
        .ok 0 { s with state_ := .s_exec,
                       trace := s.trace ++ [.ev_state .s_exec] }) := by
  refine ⟨?_, fun hidle hth hin hready =>
    before_command_inactive env fuel this_thread s hidle hready hth hin⟩
  intro s1 h
  by_cases hready : s.server_context_.rollback_mode_ = .rm_sync →
      s.transaction_.state_ ≠ .s_aborting
  · rw [before_command_proceed_ready env fuel this_thread s s1 hready h]
    simp
  · have hsync : s.server_context_.rollback_mode_ = .rm_sync := by
      by_contra hc
      exact hready (fun h => absurd h hc)
    by_cases hidle : s.state_ = .s_idle
    swap
    · rw [before_command_not_idle env fuel this_thread s hidle] at h
      cases h
    obtain ⟨t, ht | ht⟩ := wait_while_aborting_frame env fuel 0 s
    · rw [before_command_after_wait env fuel this_thread s t hidle hsync
        ht.1 ht.2] at h
      rw [before_command_proceed_ready env 0 this_thread _ s1
        (fun _ => ht.2) h]
      simp
    · rw [before_command_still_waiting env fuel this_thread s _ hidle hsync
        ht.1] at h
      cases h

/-- Witness of C6: scenario A of the specification. -/
theorem before_command_proceeds_witness :
    before_command mock_environment 0 7
        (session .s_idle .e_success ⟨false, .s_executing⟩ .rm_sync false) =
      .ok 0 { session .s_exec .e_success ⟨false, .s_executing⟩ .rm_sync
                false with trace := [.ev_state .s_exec] } :=
  (before_command_proceeds mock_environment 0 7
    (session .s_idle .e_success ⟨false, .s_executing⟩ .rm_sync false)).2
    rfl rfl rfl (fun _ => by decide)

/-! ## The other paths of the checkpoints after execution -/

/-- The call `after_command_before_result` by the owner on a session in
`s_exec` whose transaction is not both active and in `s_must_abort` only
moves the lifecycle state to `s_result`. -/
theorem after_command_before_result_plain (env : environment)
    (this_thread : Nat) (s : client_context)
    (hstate : s.state_ = .s_exec) (hthread : this_thread = s.thread_id_)
    (hplain : ¬ (s.transaction_.active_ = true ∧
      s.transaction_.state_ = .s_must_abort)) :
    after_command_before_result env this_thread s =
      .ok () { s with state_ := .s_result,
                      trace := s.trace ++ [.ev_state .s_result] } := by
  simp [after_command_before_result, bind_apply, get_self_apply, pure_apply,
    assert, state, set_state, allowed_at, allowed, client_state.toNat,
    hstate, hthread, hplain]

/-- The call `after_command_before_result` by the owner on a session in
`s_exec` whose transaction is active and in `s_must_abort`: it returns in
`s_result` when the rollback and `after_statement` leave the transaction in
`s_aborted`, and fails the assertion of line 102 otherwise. -/
theorem after_command_before_result_rollback (env : environment)
    (this_thread : Nat) (s : client_context)
    (hstate : s.state_ = .s_exec) (hthread : this_thread = s.thread_id_)
    (hactive : s.transaction_.active_ = true)
    (hmust : s.transaction_.state_ = .s_must_abort) :
    after_command_before_result env this_thread s =
      if (env.after_statement (env.rollback s.transaction_)).state_ =
          .s_aborted then
        .ok () { s with
          state_ := .s_result,
          current_error_ := .e_deadlock_error,
          transaction_ := env.after_statement (env.rollback s.transaction_),
          trace := s.trace ++
            [.ev_current_error .e_deadlock_error, .ev_rollback,
             .ev_transaction_after_statement, .ev_state .s_result] }
      else
        .fail (.transaction_assert 102) { s with
          current_error_ := .e_deadlock_error,
          transaction_ := env.after_statement (env.rollback s.transaction_),
          trace := s.trace ++
            [.ev_current_error .e_deadlock_error, .ev_rollback,
             .ev_transaction_after_statement] } := by
  by_cases hc : (env.after_statement (env.rollback s.transaction_)).state_ =
      .s_aborted <;>
  simp [after_command_before_result, bind_apply, get_self_apply, pure_apply,
    assert, override_error, throw_runtime_error, set_current_error, rollback,
    transaction_after_statement, state, set_state, allowed_at, allowed,
    client_state.toNat, hstate, hthread, hactive, hmust, hc]

/-- The call `after_command_after_result` on a session in `s_result` whose
transaction is in `s_aborting` fails the assertion of line 114 and changes
nothing. -/
theorem after_command_after_result_aborting (env : environment)
    (this_thread : Nat) (s : client_context)
    (hstate : s.state_ = .s_result)
    (haborting : s.transaction_.state_ = .s_aborting) :
    after_command_after_result env this_thread s =
      .fail (.transaction_assert 114) s := by
  simp [after_command_after_result, bind_apply, get_self_apply, assert,
    hstate, haborting]

/-- The call `after_command_after_result` by the owner on a session in
`s_result` whose transaction is active and in `s_must_abort`: it returns in
`s_idle` when the rollback leaves the transaction in `s_aborted`, and fails
the assertion of line 121 otherwise. -/
theorem after_command_after_result_rollback (env : environment)
    (this_thread : Nat) (s : client_context)
    (hstate : s.state_ = .s_result) (hthread : this_thread = s.thread_id_)
    (hactive : s.transaction_.active_ = true)
    (hmust : s.transaction_.state_ = .s_must_abort) :
    after_command_after_result env this_thread s =
      if (env.rollback s.transaction_).state_ = .s_aborted then
        .ok () { s with
          state_ := .s_idle,
          current_error_ := .e_deadlock_error,
          transaction_ := env.rollback s.transaction_,
          trace := s.trace ++
            [.ev_rollback, .ev_current_error .e_deadlock_error,
             .ev_state .s_idle] }
      else
        .fail (.transaction_assert 121) { s with
          transaction_ := env.rollback s.transaction_,
          trace := s.trace ++ [.ev_rollback] } := by
  by_cases hc : (env.rollback s.transaction_).state_ = .s_aborted <;>
  simp [after_command_after_result, bind_apply, get_self_apply, pure_apply,
    assert, override_error, throw_runtime_error, set_current_error, rollback,
    state, set_state, allowed_at, allowed, client_state.toNat, hstate,
    hthread, hactive, hmust, hc]

/-- The call `after_command_after_result` by the owner on a session in
`s_result` whose transaction is not active and not in `s_aborting` resets
the error and moves the lifecycle state to `s_idle`. -/
theorem after_command_after_result_reset (env : environment)
    (this_thread : Nat) (s : client_context)
    (hstate : s.state_ = .s_result) (hthread : this_thread = s.thread_id_)
    (hinactive : s.transaction_.active_ = false)
    (hsettled : s.transaction_.state_ ≠ .s_aborting) :
    after_command_after_result env this_thread s =
      .ok () { s with
        state_ := .s_idle,
        current_error_ := .e_success,
        trace := s.trace ++
          [.ev_current_error .e_success, .ev_state .s_idle] } := by
  simp [after_command_after_result, bind_apply, get_self_apply, pure_apply,
    assert, set_current_error, state, set_state, allowed_at, allowed,
    client_state.toNat, hstate, hthread, hinactive, hsettled]

/-- The call `after_command_after_result` by the owner on a session in
`s_result` whose transaction is active and neither in `s_must_abort` nor in
`s_aborting` only moves the lifecycle state to `s_idle`. -/
theorem after_command_after_result_keep (env : environment)
    (this_thread : Nat) (s : client_context)
    (hstate : s.state_ = .s_result) (hthread : this_thread = s.thread_id_)
    (hactive : s.transaction_.active_ = true)
    (hmust : s.transaction_.state_ ≠ .s_must_abort)
    (hsettled : s.transaction_.state_ ≠ .s_aborting) :
    after_command_after_result env this_thread s =
      .ok () { s with state_ := .s_idle,
                      trace := s.trace ++ [.ev_state .s_idle] } := by
  simp [after_command_after_result, bind_apply, get_self_apply, pure_apply,
    assert, state, set_state, allowed_at, allowed, client_state.toNat,
    hstate, hthread, hactive, hmust, hsettled]

/-! ## The lifecycle over a round trip -/

/-- Sequencing keeps the lifecycle on the table: if the first call ends on
the table at `a` and the second one, entered at `a`, ends on the table at
`b`, then so does their sequence. -/
theorem on_table_bind {α β : Type} (x : M α) (f : α → M β)
    (a b : client_state) (tid : Nat) (s : client_context)
    (hx : (x s).on_table a tid)
    (hf : ∀ v s1, s1.state_ = a → s1.thread_id_ = tid →
      (f v s1).on_table b tid) :
    ((x >>= f) s).on_table b tid := by
  rw [bind_apply]
  cases h : x s with
  | ok v s1 =>
    rw [h] at hx
    exact hf v s1 hx.1 hx.2
  | fail e s1 =>
    rw [h] at hx
    exact hx

/-- Entering a checkpoint leaves the lifecycle state and the owner alone. -/
theorem arrive_on_table (w : surroundings) (s : client_context) :
    (arrive w s : outcome Unit).on_table s.state_ s.thread_id_ := by
  simp [arrive, outcome.on_table]

/-- The call `before_command` that does not have to wait, made by the
owner in `s_idle`, keeps the lifecycle on the table at `s_exec`. -/
theorem before_command_on_table_ready (env : environment) (fuel : Nat)
    (s : client_context) (hidle : s.state_ = .s_idle)
    (hready : s.server_context_.rollback_mode_ = .rm_sync →
      s.transaction_.state_ ≠ .s_aborting) :
    (before_command env fuel s.thread_id_ s).on_table .s_exec
      s.thread_id_ := by
  by_cases hact : s.transaction_.active_ = true
  swap
  · rw [before_command_inactive env fuel _ s hidle hready rfl
      (by simpa using hact)]
    simp [outcome.on_table]
  by_cases hex : s.transaction_.state_ = .s_executing
  · rw [before_command_executing env fuel _ s hidle rfl hact hex]
    simp [outcome.on_table]
  by_cases hab : s.transaction_.state_ = .s_aborted
  · rw [before_command_aborted env fuel _ s hidle rfl hact hab]
    split <;> simp [outcome.on_table, fault.from_transaction]
  by_cases hmu : s.transaction_.state_ = .s_must_abort
  · by_cases hm : s.server_context_.rollback_mode_ = .rm_async
    · rw [before_command_must_abort env fuel _ s hidle rfl hact hmu hm]
      split
      · split <;> simp [outcome.on_table, fault.from_transaction]
      · simp [outcome.on_table, fault.from_transaction]
    · have hs : s.server_context_.rollback_mode_ = .rm_sync := by
        cases hr : s.server_context_.rollback_mode_
        · exact absurd hr hm
        · rfl
      rw [before_command_unexpected env fuel _ s hidle hready rfl hact hex
        hab (fun _ => hs)]
      simp [outcome.on_table, fault.from_transaction]
  · rw [before_command_unexpected env fuel _ s hidle hready rfl hact hex hab
      (fun h => absurd h hmu)]
    simp [outcome.on_table, fault.from_transaction]

/-- The call `before_command` made by the owner in `s_idle` keeps the
lifecycle on the table at `s_exec`, however long it waits. -/
theorem before_command_on_table (env : environment) (fuel : Nat)
    (s : client_context) (hidle : s.state_ = .s_idle) :
    (before_command env fuel s.thread_id_ s).on_table .s_exec
      s.thread_id_ := by
  by_cases hready : s.server_context_.rollback_mode_ = .rm_sync →
      s.transaction_.state_ ≠ .s_aborting
  · exact before_command_on_table_ready env fuel s hidle hready
  · have hsync : s.server_context_.rollback_mode_ = .rm_sync := by
      by_contra hc
      exact hready (fun h => absurd h hc)
    obtain ⟨t, ht | ht⟩ := wait_while_aborting_frame env fuel 0 s
    · rw [before_command_after_wait env fuel _ s t hidle hsync ht.1 ht.2]
      exact before_command_on_table_ready env 0
        { s with transaction_ := t } hidle (fun _ => ht.2)
    · rw [before_command_still_waiting env fuel _ s _ hidle hsync ht.1]
      simp [outcome.on_table, fault.from_transaction]

/-- The call `before_command` made by the owner in `s_idle` returns when
the entry conditions hold and the collaborators behave as asserted. -/
theorem before_command_returns (env : environment) (fuel : Nat)
    (s : client_context) (hidle : s.state_ = .s_idle)
    (henv : env.as_asserted)
    (hready : s.server_context_.rollback_mode_ = .rm_sync →
      s.transaction_.state_ ≠ .s_aborting)
    (hentry : s.transaction_.active_ = false ∨
      (s.transaction_.state_ = .s_executing ∨
       s.transaction_.state_ = .s_aborted ∨
       (s.transaction_.state_ = .s_must_abort ∧
        s.server_context_.rollback_mode_ = .rm_async))) :
    ∃ r s1, before_command env fuel s.thread_id_ s = .ok r s1 := by
  by_cases hact : s.transaction_.active_ = true
  swap
  · exact ⟨_, _, before_command_inactive env fuel _ s hidle hready rfl
      (by simpa using hact)⟩
  rcases hentry with h | h | h | h
  · rw [h] at hact
    cases hact
  · exact ⟨_, _, before_command_executing env fuel _ s hidle rfl hact h⟩
  · have hb := before_command_aborted env fuel _ s hidle rfl hact h
    rw [if_pos (henv.2 _ h).2] at hb
    exact ⟨_, _, hb⟩
  · have hb := before_command_must_abort env fuel _ s hidle rfl hact h.1 h.2
    have h1 := henv.2 _ (henv.1 s.transaction_)
    rw [if_pos h1.1, if_pos h1.2] at hb
    exact ⟨_, _, hb⟩

/-- The call `before_statement` returns and changes nothing. -/
theorem before_statement_returns (s : client_context) :
    ∃ r, before_statement s = .ok r s := by
  by_cases h : s.transaction_.active_ = true ∧
      s.transaction_.state_ = .s_must_abort
  · exact ⟨1, by
      simp [before_statement, bind_apply, get_self_apply, pure_apply, h]⟩
  · exact ⟨0, by
      simp [before_statement, bind_apply, get_self_apply, pure_apply, h]⟩

/-- The call `after_statement` in `s_exec` returns, having only called the
transaction's `after_statement`. -/
theorem after_statement_returns (env : environment) (s : client_context)
    (hstate : s.state_ = .s_exec) :
    ∃ r, after_statement env s =
      .ok r { s with transaction_ := env.after_statement s.transaction_,
                     trace := s.trace ++
                       [.ev_transaction_after_statement] } := by
  by_cases he : s.current_error_ = .e_deadlock_error
  · by_cases ha : s.is_autocommit_ = true
    · exact ⟨.asr_may_retry, by
        simp [after_statement, bind_apply, get_self_apply, pure_apply, assert,
          transaction_after_statement, hstate, he, ha]⟩
    · exact ⟨.asr_error, by
        simp [after_statement, bind_apply, get_self_apply, pure_apply, assert,
          transaction_after_statement, hstate, he, ha]⟩
  · exact ⟨.asr_success, by
      simp [after_statement, bind_apply, get_self_apply, pure_apply, assert,
        transaction_after_statement, hstate, he]⟩

/-- The statements of a command, entered in `s_exec`, all return and leave
the session in `s_exec`. -/
theorem statements_returns (env : environment) :
    ∀ (stmts : List (surroundings × surroundings)) (s : client_context),
      s.state_ = .s_exec →
      ∃ s1, statements env stmts s = .ok () s1 ∧ s1.state_ = .s_exec ∧
        s1.thread_id_ = s.thread_id_ := by
  intro stmts
  induction stmts with
  | nil =>
    intro s hs
    exact ⟨s, rfl, hs, rfl⟩
  | cons p rest ih =>
    intro s hs
    obtain ⟨w1, w2⟩ := p
    obtain ⟨r1, h1⟩ := before_statement_returns
      { s with
        transaction_ := w1.transaction_,
        server_context_ := { rollback_mode_ := w1.rollback_mode_ },
        current_error_ := w1.current_error_,
        is_autocommit_ := w1.is_autocommit_ }
    obtain ⟨r2, h2⟩ := after_statement_returns env
      { s with
        transaction_ := w2.transaction_,
        server_context_ := { rollback_mode_ := w2.rollback_mode_ },
        current_error_ := w2.current_error_,
        is_autocommit_ := w2.is_autocommit_ } hs
    obtain ⟨s1, h3, h4, h5⟩ := ih
      { s with
        transaction_ := env.after_statement w2.transaction_,
        server_context_ := { rollback_mode_ := w2.rollback_mode_ },
        current_error_ := w2.current_error_,
        is_autocommit_ := w2.is_autocommit_,
        trace := s.trace ++ [.ev_transaction_after_statement] } hs
    refine ⟨s1, ?_, h4, h5⟩
    simp only [statements, bind_apply, arrive, h1, h2]
    exact h3

/-- The call `after_command_before_result` made by the owner in `s_exec`
keeps the lifecycle on the table at `s_result`. -/
theorem after_command_before_result_on_table (env : environment)
    (s : client_context) (hstate : s.state_ = .s_exec) :
    (after_command_before_result env s.thread_id_ s).on_table .s_result
      s.thread_id_ := by
  by_cases h : s.transaction_.active_ = true ∧
      s.transaction_.state_ = .s_must_abort
  · rw [after_command_before_result_rollback env _ s hstate rfl h.1 h.2]
    split <;> simp [outcome.on_table, fault.from_transaction]
  · rw [after_command_before_result_plain env _ s hstate rfl h]
    simp [outcome.on_table]

/-- The call `after_command_before_result` made by the owner in `s_exec`
returns when the collaborators behave as asserted. -/
theorem after_command_before_result_returns (env : environment)
    (s : client_context) (hstate : s.state_ = .s_exec)
    (henv : env.as_asserted) :
    ∃ s1, after_command_before_result env s.thread_id_ s = .ok () s1 := by
  by_cases h : s.transaction_.active_ = true ∧
      s.transaction_.state_ = .s_must_abort
  · have hb := after_command_before_result_rollback env _ s hstate rfl
      h.1 h.2
    rw [if_pos (henv.2 _ (henv.1 s.transaction_)).1] at hb
    exact ⟨_, hb⟩
  · exact ⟨_, after_command_before_result_plain env _ s hstate rfl h⟩

/-- The call `after_command_after_result` made by the owner in `s_result`
keeps the lifecycle on the table at `s_idle`. -/
theorem after_command_after_result_on_table (env : environment)
    (s : client_context) (hstate : s.state_ = .s_result) :
    (after_command_after_result env s.thread_id_ s).on_table .s_idle
      s.thread_id_ := by
  by_cases hab : s.transaction_.state_ = .s_aborting
  · rw [after_command_after_result_aborting env _ s hstate hab]
    simp [outcome.on_table, fault.from_transaction]
  by_cases hact : s.transaction_.active_ = true
  swap
  · rw [after_command_after_result_reset env _ s hstate rfl
      (by simpa using hact) hab]
    simp [outcome.on_table]
  by_cases hmu : s.transaction_.state_ = .s_must_abort
  · rw [after_command_after_result_rollback env _ s hstate rfl hact hmu]
    split <;> simp [outcome.on_table, fault.from_transaction]
  · rw [after_command_after_result_keep env _ s hstate rfl hact hmu hab]
    simp [outcome.on_table]

/-- The call `after_command_after_result` made by the owner in `s_result`
returns when the transaction is not in `s_aborting` and the collaborators
behave as asserted. -/
theorem after_command_after_result_returns (env : environment)
    (s : client_context) (hstate : s.state_ = .s_result)
    (henv : env.as_asserted)
    (hab : s.transaction_.state_ ≠ .s_aborting) :
    ∃ s1, after_command_after_result env s.thread_id_ s = .ok () s1 := by
  by_cases hact : s.transaction_.active_ = true
  swap
  · exact ⟨_, after_command_after_result_reset env _ s hstate rfl
      (by simpa using hact) hab⟩
  by_cases hmu : s.transaction_.state_ = .s_must_abort
  · have hb := after_command_after_result_rollback env _ s hstate rfl hact hmu
    rw [if_pos (henv.1 s.transaction_)] at hb
    exact ⟨_, hb⟩
  · exact ⟨_, after_command_after_result_keep env _ s hstate rfl hact hmu hab⟩

/-- A round trip started by the owner in `s_idle` keeps the lifecycle on
the table and, if it completes, is back at `s_idle`. -/
theorem round_trip_on_table (env : environment) (fuel : Nat)
    (w0 : surroundings) (stmts : List (surroundings × surroundings))
    (w1 w2 : surroundings) (s : client_context)
    (hidle : s.state_ = .s_idle) :
    (round_trip env fuel s.thread_id_ w0 stmts w1 w2 s).on_table .s_idle
      s.thread_id_ := by
  unfold round_trip
  refine on_table_bind _ _ .s_idle _ _ _ ?_ ?_
  · have h := arrive_on_table w0 s
    rwa [hidle] at h
  intro _ s1 hs1 ht1
  refine on_table_bind _ _ .s_exec _ _ _ ?_ ?_
  · have h := before_command_on_table env fuel s1 hs1
    rwa [ht1] at h
  intro _ s2 hs2 ht2
  refine on_table_bind _ _ .s_exec _ _ _ ?_ ?_
  · obtain ⟨s3, h3, h4, h5⟩ := statements_returns env stmts s2 hs2
    rw [h3]
    exact ⟨h4, h5.trans ht2⟩
  intro _ s3 hs3 ht3
  refine on_table_bind _ _ .s_exec _ _ _ ?_ ?_
  · have h := arrive_on_table w1 s3
    rwa [hs3, ht3] at h
  intro _ s4 hs4 ht4
  refine on_table_bind _ _ .s_result _ _ _ ?_ ?_
  · have h := after_command_before_result_on_table env s4 hs4
    rwa [ht4] at h
  intro _ s5 hs5 ht5
  refine on_table_bind _ _ .s_result _ _ _ ?_ ?_
  · have h := arrive_on_table w2 s5
    rwa [hs5, ht5] at h
  intro _ s6 hs6 ht6
  have h := after_command_after_result_on_table env s6 hs6
  rwa [ht6] at h

/-- A round trip started by the owner in `s_idle` completes when the
collaborators behave as asserted, `before_command` finds its entry
conditions and `after_command_after_result` finds the transaction out of
`s_aborting`. -/
theorem round_trip_returns (env : environment) (fuel : Nat)
    (w0 : surroundings) (stmts : List (surroundings × surroundings))
    (w1 w2 : surroundings) (s : client_context)
    (hidle : s.state_ = .s_idle) (henv : env.as_asserted)
    (hentry : w0.before_command_entry)
    (hsettled : w2.transaction_.state_ ≠ .s_aborting) :
    ∃ s1, round_trip env fuel s.thread_id_ w0 stmts w1 w2 s = .ok () s1 := by
  obtain ⟨r, s1, hb⟩ := before_command_returns env fuel
    { s with
      transaction_ := w0.transaction_,
      server_context_ := { rollback_mode_ := w0.rollback_mode_ },
      current_error_ := w0.current_error_,
      is_autocommit_ := w0.is_autocommit_ } hidle henv hentry.1 hentry.2
  have hb1 := before_command_on_table env fuel
    { s with
      transaction_ := w0.transaction_,
      server_context_ := { rollback_mode_ := w0.rollback_mode_ },
      current_error_ := w0.current_error_,
      is_autocommit_ := w0.is_autocommit_ } hidle
  rw [hb] at hb1
  obtain ⟨s2, h2, hs2, ht2⟩ := statements_returns env stmts s1 hb1.1
  have ht2s : s2.thread_id_ = s.thread_id_ := ht2.trans hb1.2
  obtain ⟨s3, h3⟩ := after_command_before_result_returns env
    { s2 with
      transaction_ := w1.transaction_,
      server_context_ := { rollback_mode_ := w1.rollback_mode_ },
      current_error_ := w1.current_error_,
      is_autocommit_ := w1.is_autocommit_ } hs2 henv
  have h3t := after_command_before_result_on_table env
    { s2 with
      transaction_ := w1.transaction_,
      server_context_ := { rollback_mode_ := w1.rollback_mode_ },
      current_error_ := w1.current_error_,
      is_autocommit_ := w1.is_autocommit_ } hs2
  rw [h3] at h3t
  simp only at h3 h3t
  have ht3s : s3.thread_id_ = s.thread_id_ := h3t.2.trans ht2s
  obtain ⟨s4, h4⟩ := after_command_after_result_returns env
    { s3 with
      transaction_ := w2.transaction_,
      server_context_ := { rollback_mode_ := w2.rollback_mode_ },
      current_error_ := w2.current_error_,
      is_autocommit_ := w2.is_autocommit_ } h3t.1 henv hsettled
  simp only at h4
  rw [ht2s] at h3
  rw [ht3s] at h4
  refine ⟨s4, ?_⟩
  simp only [round_trip, bind_apply, arrive]
  simp only at hb
  rw [hb]
  simp only [h2, ht2s, h3, ht3s, h4]

/-- C10: a round trip in the legal order of the checkpoints, started by the
owning thread on a session in `s_idle`, with any transaction, rollback mode,
error and autocommit flag found at each checkpoint, any number of
statements, and either result of `before_command`: no call ends in the
runtime error of an unallowed transition and no call fails its lifecycle
precondition (a call that stops does so on an assertion about the
transaction or in the busy-wait loop); a round trip that completes ends in
`s_idle`; and the round trip does complete when the collaborators behave as
the code asserts, `before_command` finds its entry conditions and
`after_command_after_result` finds the transaction out of `s_aborting`. -/
theorem round_trip_stays_on_table (env : environment)
    (fuel this_thread : Nat) (w0 : surroundings)
    (stmts : List (surroundings × surroundings)) (w1 w2 : surroundings)
    (s : client_context)
    (hidle : s.state_ = .s_idle) (hthread : this_thread = s.thread_id_) :
    (∀ f s1, round_trip env fuel this_thread w0 stmts w1 w2 s = .fail f s1 →
      (∀ a b, f ≠ .unallowed_state_transition a b) ∧
      (∀ e, f ≠ .wrong_state e) ∧
      f.from_transaction) ∧
    (∀ s1, round_trip env fuel this_thread w0 stmts w1 w2 s = .ok () s1 →
      s1.state_ = .s_idle) ∧
    (env.as_asserted → w0.before_command_entry →
      w2.transaction_.state_ ≠ .s_aborting →
      ∃ s1, round_trip env fuel this_thread w0 stmts w1 w2 s = .ok () s1 ∧
        s1.state_ = .s_idle) := by
  subst hthread
  have h := round_trip_on_table env fuel w0 stmts w1 w2 s hidle
  refine ⟨?_, ?_, ?_⟩
  · intro f s1 hf
    rw [hf] at h
    have hft : f.from_transaction := h
    refine ⟨?_, ?_, hft⟩
    · intro a b hab
      rw [hab] at hft
      exact hft
    · intro e he
      rw [he] at hft
      exact hft
  · intro s1 hs
    rw [hs] at h
    exact h.1
  · intro henv hentry hsettled
    obtain ⟨s1, hs⟩ := round_trip_returns env fuel w0 stmts w1 w2 s hidle
      henv hentry hsettled
    rw [hs] at h
    exact ⟨s1, hs, h.1⟩

/-- The concrete collaborator behaves as the assertions of the code
expect. -/
theorem mock_environment_as_asserted : mock_environment.as_asserted := by
  refine ⟨fun t => rfl, fun t ht => ?_⟩
  simp [mock_environment, ht]

/-- Witness of C10: thread 7 starts a command on a transaction that was
flagged `s_must_abort` while the session was idle, runs one statement, and
a new transaction is flagged again after the result was sent; the round trip
completes in `s_idle`. -/
theorem round_trip_stays_on_table_witness :
    ∃ s1, round_trip mock_environment 0 7
        ⟨⟨true, .s_must_abort⟩, .rm_async, .e_success, true⟩
        [(⟨⟨false, .s_aborted⟩, .rm_async, .e_deadlock_error, true⟩,
          ⟨⟨true, .s_executing⟩, .rm_async, .e_deadlock_error, true⟩)]
        ⟨⟨true, .s_executing⟩, .rm_async, .e_success, true⟩
        ⟨⟨true, .s_must_abort⟩, .rm_sync, .e_success, true⟩
        (session .s_idle .e_success ⟨false, .s_executing⟩ .rm_async true) =
          .ok () s1 ∧
      s1.state_ = .s_idle :=
  (round_trip_stays_on_table mock_environment 0 7
    ⟨⟨true, .s_must_abort⟩, .rm_async, .e_success, true⟩
    [(⟨⟨false, .s_aborted⟩, .rm_async, .e_deadlock_error, true⟩,
      ⟨⟨true, .s_executing⟩, .rm_async, .e_deadlock_error, true⟩)]
    ⟨⟨true, .s_executing⟩, .rm_async, .e_success, true⟩
    ⟨⟨true, .s_must_abort⟩, .rm_sync, .e_success, true⟩
    (session .s_idle .e_success ⟨false, .s_executing⟩ .rm_async true)
    rfl rfl).2.2 mock_environment_as_asserted
    ⟨fun h => (by cases h), Or.inr (Or.inr (Or.inr ⟨rfl, rfl⟩))⟩
    (by decide)

/-! ## Frame effects of the checkpoints after execution -/

/-- C16: for a session in `s_exec` whose transaction is not active, or is
active in a state other than `s_must_abort`: whenever
`after_command_before_result` returns, it has only moved the lifecycle state
to `s_result` (error and transaction as they were, neither `rollback` nor
the transaction's `after_statement` called), and the call made by the owning
thread does return. -/
theorem after_command_before_result_direct (env : environment)
    (this_thread : Nat) (s : client_context)
    (hstate : s.state_ = .s_exec)
    (hplain : s.transaction_.active_ = false ∨
      (s.transaction_.active_ = true ∧
       s.transaction_.state_ ≠ .s_must_abort)) :
    (∀ s1, after_command_before_result env this_thread s = .ok () s1 →
      s1.state_ = .s_result ∧
      s1.current_error_ = s.current_error_ ∧
      s1.transaction_ = s.transaction_ ∧
      s1.trace = s.trace ++ [.ev_state .s_result]) ∧
    (this_thread = s.thread_id_ →
      after_command_before_result env this_thread s =
        .ok () { s with state_ := .s_result,
                        trace := s.trace ++ [.ev_state .s_result] }) := by
  have hp : ¬ (s.transaction_.active_ = true ∧
      s.transaction_.state_ = .s_must_abort) := by
    rintro ⟨h1, h2⟩
    rcases hplain with h | h
    · rw [h] at h1
      cases h1
    · exact h.2 h2
  by_cases hth : this_thread = s.thread_id_
  · have h := after_command_before_result_plain env this_thread s hstate hth
      hp
    refine ⟨?_, fun _ => h⟩
    intro s1 h1
    rw [h] at h1
    cases h1
    simp
  · refine ⟨?_, fun h => absurd h hth⟩
    intro s1 h1
    simp [after_command_before_result, bind_apply, get_self_apply,
      pure_apply, assert, state, hstate, hth, hp] at h1

/-- Witness of C16: a command ends inside an open transaction. -/
theorem after_command_before_result_direct_witness :
    after_command_before_result mock_environment 7
        (session .s_exec (.e_other 3) ⟨true, .s_executing⟩ .rm_sync false) =
      .ok () { session .s_result (.e_other 3) ⟨true, .s_executing⟩ .rm_sync
                 false with trace := [.ev_state .s_result] } :=
  (after_command_before_result_direct mock_environment 7
    (session .s_exec (.e_other 3) ⟨true, .s_executing⟩ .rm_sync false)
    rfl (Or.inr ⟨rfl, by decide⟩)).2 rfl

/-- C17: for a session in `s_result` whose transaction is active and
neither in `s_must_abort` nor in `s_aborting`: whenever
`after_command_after_result` returns, it has only moved the lifecycle state
to `s_idle`; the error is exactly as it was (an error that is set stays set
for the next command) and so is the transaction; the call made by the owning
thread does return. -/
theorem after_command_after_result_keeps_error (env : environment)
    (this_thread : Nat) (s : client_context)
    (hstate : s.state_ = .s_result)
    (hactive : s.transaction_.active_ = true)
    (hmust : s.transaction_.state_ ≠ .s_must_abort)
    (hsettled : s.transaction_.state_ ≠ .s_aborting) :
    (∀ s1, after_command_after_result env this_thread s = .ok () s1 →
      s1.state_ = .s_idle ∧
      s1.current_error_ = s.current_error_ ∧
      s1.transaction_ = s.transaction_ ∧
      s1.trace = s.trace ++ [.ev_state .s_idle]) ∧
    (this_thread = s.thread_id_ →
      after_command_after_result env this_thread s =
        .ok () { s with state_ := .s_idle,
                        trace := s.trace ++ [.ev_state .s_idle] }) := by
  by_cases hth : this_thread = s.thread_id_
  · have h := after_command_after_result_keep env this_thread s hstate hth
      hactive hmust hsettled
    refine ⟨?_, fun _ => h⟩
    intro s1 h1
    rw [h] at h1
    cases h1
    simp
  · refine ⟨?_, fun h => absurd h hth⟩
    intro s1 h1
    simp [after_command_after_result, bind_apply, get_self_apply,
      pure_apply, assert, state, hstate, hth, hactive, hmust, hsettled] at h1

/-- Witness of C17: the deadlock error survives the end of a command whose
transaction is active and already aborted. -/
theorem after_command_after_result_keeps_error_witness :
    after_command_after_result mock_environment 7
        (session .s_result .e_deadlock_error ⟨true, .s_aborted⟩ .rm_async
          false) =
      .ok () { session .s_idle .e_deadlock_error ⟨true, .s_aborted⟩ .rm_async
                 false with trace := [.ev_state .s_idle] } :=
  (after_command_after_result_keeps_error mock_environment 7
    (session .s_result .e_deadlock_error ⟨true, .s_aborted⟩ .rm_async false)
    rfl rfl (by decide) (by decide)).2 rfl

/-! ## The checkpoints after execution, in every case -/

/-- The outcome of `after_command_before_result` for every session and
every calling thread, path by path. -/
theorem after_command_before_result_eq (env : environment)
    (this_thread : Nat) (s : client_context) :
    after_command_before_result env this_thread s =
      if s.state_ ≠ .s_exec then .fail (.wrong_state .s_exec) s
      else if s.transaction_.active_ = true ∧
          s.transaction_.state_ = .s_must_abort then
        if this_thread ≠ s.thread_id_ then .fail .wrong_thread s
        else if (env.after_statement (env.rollback s.transaction_)).state_ ≠
            .s_aborted then
          .fail (.transaction_assert 102) { s with
            current_error_ := .e_deadlock_error,
            transaction_ := env.after_statement (env.rollback s.transaction_),
            trace := s.trace ++
              [.ev_current_error .e_deadlock_error, .ev_rollback,
               .ev_transaction_after_statement] }
        else
          .ok () { s with
            state_ := .s_result,
            current_error_ := .e_deadlock_error,
            transaction_ := env.after_statement (env.rollback s.transaction_),
            trace := s.trace ++
              [.ev_current_error .e_deadlock_error, .ev_rollback,
               .ev_transaction_after_statement, .ev_state .s_result] }
      else if this_thread ≠ s.thread_id_ then .fail .wrong_thread s
      else
        .ok () { s with state_ := .s_result,
                        trace := s.trace ++ [.ev_state .s_result] } := by
  by_cases hst : s.state_ = .s_exec
  swap
  · simp [after_command_before_result, bind_apply, get_self_apply, assert,
      hst]
  by_cases hth : this_thread = s.thread_id_
  · by_cases hm : s.transaction_.active_ = true ∧
        s.transaction_.state_ = .s_must_abort
    · rw [after_command_before_result_rollback env this_thread s hst hth
        hm.1 hm.2]
      by_cases hc :
          (env.after_statement (env.rollback s.transaction_)).state_ =
            .s_aborted <;>
        simp [hst, hth, hm, hc]
    · rw [after_command_before_result_plain env this_thread s hst hth hm]
      simp [hst, hth, hm]
  · by_cases hm : s.transaction_.active_ = true ∧
        s.transaction_.state_ = .s_must_abort <;>
      simp [after_command_before_result, bind_apply, get_self_apply,
        pure_apply, assert, override_error, state, hst, hth, hm]

/-- The outcome of `after_command_after_result` for every session and every
calling thread, path by path. -/
theorem after_command_after_result_eq (env : environment)
    (this_thread : Nat) (s : client_context) :
    after_command_after_result env this_thread s =
      if s.state_ ≠ .s_result then .fail (.wrong_state .s_result) s
      else if s.transaction_.state_ = .s_aborting then
        .fail (.transaction_assert 114) s
      else if s.transaction_.active_ = true ∧
          s.transaction_.state_ = .s_must_abort then
        if (env.rollback s.transaction_).state_ ≠ .s_aborted then
          .fail (.transaction_assert 121) { s with
            transaction_ := env.rollback s.transaction_,
            trace := s.trace ++ [.ev_rollback] }
        else if this_thread ≠ s.thread_id_ then
          .fail .wrong_thread { s with
            transaction_ := env.rollback s.transaction_,
            trace := s.trace ++ [.ev_rollback] }
        else
          .ok () { s with
            state_ := .s_idle,
            current_error_ := .e_deadlock_error,
            transaction_ := env.rollback s.transaction_,
            trace := s.trace ++
              [.ev_rollback, .ev_current_error .e_deadlock_error,
               .ev_state .s_idle] }
      else if s.transaction_.active_ = false then
        if this_thread ≠ s.thread_id_ then
          .fail .wrong_thread { s with
            current_error_ := .e_success,
            trace := s.trace ++ [.ev_current_error .e_success] }
        else
          .ok () { s with
            state_ := .s_idle,
            current_error_ := .e_success,
            trace := s.trace ++
              [.ev_current_error .e_success, .ev_state .s_idle] }
      else if this_thread ≠ s.thread_id_ then .fail .wrong_thread s
      else
        .ok () { s with state_ := .s_idle,
                        trace := s.trace ++ [.ev_state .s_idle] } := by
  by_cases hst : s.state_ = .s_result
  swap
  · simp [after_command_after_result, bind_apply, get_self_apply, assert,
      hst]
  by_cases hab : s.transaction_.state_ = .s_aborting
  · rw [after_command_after_result_aborting env this_thread s hst hab]
    simp [hst, hab]
  by_cases hth : this_thread = s.thread_id_
  · by_cases hact : s.transaction_.active_ = true
    · by_cases hmu : s.transaction_.state_ = .s_must_abort
      · rw [after_command_after_result_rollback env this_thread s hst hth
          hact hmu]
        by_cases hc : (env.rollback s.transaction_).state_ = .s_aborted <;>
          simp [hst, hab, hth, hact, hmu, hc]
      · rw [after_command_after_result_keep env this_thread s hst hth hact
          hmu hab]
        simp [hst, hab, hth, hact, hmu]
    · have hin : s.transaction_.active_ = false := by simpa using hact
      rw [after_command_after_result_reset env this_thread s hst hth hin hab]
      simp [hst, hab, hth, hin]
  · by_cases hact : s.transaction_.active_ = true
    · by_cases hmu : s.transaction_.state_ = .s_must_abort
      · by_cases hc : (env.rollback s.transaction_).state_ = .s_aborted <;>
          simp [after_command_after_result, bind_apply, get_self_apply,
            pure_apply, assert, override_error, rollback, state, hst, hab,
            hth, hact, hmu, hc]
      · simp [after_command_after_result, bind_apply, get_self_apply,
          pure_apply, assert, state, hst, hab, hth, hact, hmu]
    · have hin : s.transaction_.active_ = false := by simpa using hact
      simp [after_command_after_result, bind_apply, get_self_apply,
        pure_apply, assert, set_current_error, state, hst, hab, hth, hin]

/-- C13: the move from `s_result` to `s_idle` never happens while the
transaction is in `s_aborting`.  A call of `after_command_after_result`
entered with the transaction in `s_aborting` stops on a failed assertion and
leaves the object as it was (for a session in `s_result` it is the assertion
of line 114, and the lifecycle state stays `s_result`); every call that
returns has moved to `s_idle` with the transaction not in `s_aborting` at
that moment; and a call entered in `s_result` that does not return has not
reached `s_idle`. -/
theorem after_command_after_result_never_while_aborting (env : environment)
    (this_thread : Nat) (s : client_context) :
    (s.transaction_.state_ = .s_aborting →
      (∃ f, after_command_after_result env this_thread s = .fail f s ∧
        (f = .wrong_state .s_result ∨ f = .transaction_assert 114)) ∧
      (s.state_ = .s_result →
        after_command_after_result env this_thread s =
          .fail (.transaction_assert 114) s ∧
        (after_command_after_result env this_thread s).final.state_ ≠
          .s_idle)) ∧
    (∀ s1, after_command_after_result env this_thread s = .ok () s1 →
      s1.state_ = .s_idle ∧ s1.transaction_.state_ ≠ .s_aborting) ∧
    (s.state_ = .s_result →
      ∀ f s1, after_command_after_result env this_thread s = .fail f s1 →
        s1.state_ ≠ .s_idle) := by
  refine ⟨?_, ?_, ?_⟩
  · intro hab
    refine ⟨?_, ?_⟩
    · by_cases hst : s.state_ = .s_result
      · exact ⟨_, after_command_after_result_aborting env this_thread s hst
          hab, Or.inr rfl⟩
      · refine ⟨.wrong_state .s_result, ?_, Or.inl rfl⟩
        rw [after_command_after_result_eq, if_pos hst]
    · intro hst
      have h := after_command_after_result_aborting env this_thread s hst hab
      refine ⟨h, ?_⟩
      rw [h]
      simp [outcome.final, hst]
  · intro s1 h
    rw [after_command_after_result_eq] at h
    split_ifs at h with h1 h2 h3 h4 h5 h6 h7 h8
    · cases h
      simp only [ne_eq, Decidable.not_not] at h4
      simp [h4]
    · cases h
      exact ⟨rfl, h2⟩
    · cases h
      exact ⟨rfl, h2⟩
  · intro hst f s1 h
    rw [after_command_after_result_eq] at h
    split_ifs at h with h1 h2 h3 h4 h5 h6 h7 h8 <;> cases h <;> simp [hst]

/-- Witness of C13: a session of thread 7 in `s_result` whose transaction
is in `s_aborting` is stopped by the assertion of line 114. -/
theorem after_command_after_result_never_while_aborting_witness :
    after_command_after_result mock_environment 7
        (session .s_result .e_success ⟨true, .s_aborting⟩ .rm_sync false) =
      .fail (.transaction_assert 114)
        (session .s_result .e_success ⟨true, .s_aborting⟩ .rm_sync false) :=
  ((after_command_after_result_never_while_aborting mock_environment 7
    (session .s_result .e_success ⟨true, .s_aborting⟩ .rm_sync false)).1
    rfl).2 rfl |>.1

/-! ## From one command to the next -/

/-- C18: `after_command_after_result` never calls the transaction's
`after_statement`: whatever the session and the thread, what the call adds
to the log contains no such call.  Hence, when the owning thread ends a
command in `s_result` with the transaction active and in `s_must_abort`, and
`rollback` leaves the transaction active in `s_aborted`, the next
`before_command` takes its branch for an aborted transaction: whenever it
returns, it returns 1 with the deadlock error, the transaction has gone
through `after_statement`, and the log shows the single `rollback` of
`after_command_after_result` and none in `before_command`.  It does return
when `after_statement` leaves the transaction no longer active. -/
theorem after_command_after_result_leaves_cleanup (env : environment)
    (fuel this_thread : Nat) (s : client_context) :
    (∃ l, (after_command_after_result env this_thread s).final.trace =
        s.trace ++ l ∧
      event.ev_transaction_after_statement ∉ l) ∧
    (s.state_ = .s_result → this_thread = s.thread_id_ →
      s.transaction_.active_ = true →
      s.transaction_.state_ = .s_must_abort →
      (env.rollback s.transaction_).active_ = true →
      (env.rollback s.transaction_).state_ = .s_aborted →
      (∀ r s1, after_result_then_before_command env fuel this_thread s =
          .ok r s1 →
        r = 1 ∧
        s1.current_error_ = .e_deadlock_error ∧
        s1.state_ = .s_exec ∧
        s1.transaction_ = env.after_statement (env.rollback s.transaction_) ∧
        s1.trace = s.trace ++
          [.ev_rollback, .ev_current_error .e_deadlock_error,
           .ev_state .s_idle, .ev_state .s_exec,
           .ev_current_error .e_deadlock_error,
           .ev_transaction_after_statement]) ∧
      ((env.after_statement (env.rollback s.transaction_)).active_ = false →
        ∃ s1, after_result_then_before_command env fuel this_thread s =
          .ok 1 s1)) := by
  refine ⟨?_, ?_⟩
  · rw [after_command_after_result_eq]
    split_ifs
    · exact ⟨[], by simp [outcome.final], by simp⟩
    · exact ⟨[], by simp [outcome.final], by simp⟩
    · exact ⟨[.ev_rollback], by simp [outcome.final], by simp⟩
    · exact ⟨[.ev_rollback], by simp [outcome.final], by simp⟩
    · exact ⟨[.ev_rollback, .ev_current_error .e_deadlock_error,
        .ev_state .s_idle], by simp [outcome.final], by simp⟩
    · exact ⟨[.ev_current_error .e_success], by simp [outcome.final],
        by simp⟩
    · exact ⟨[.ev_current_error .e_success, .ev_state .s_idle],
        by simp [outcome.final], by simp⟩
    · exact ⟨[], by simp [outcome.final], by simp⟩
    · exact ⟨[.ev_state .s_idle], by simp [outcome.final], by simp⟩
  · intro hst hth hact hmu hra hrs
    have h1 := after_command_after_result_rollback env this_thread s hst hth
      hact hmu
    rw [if_pos hrs] at h1
    have h2 := before_command_aborted env fuel this_thread
      { s with
        state_ := .s_idle,
        current_error_ := .e_deadlock_error,
        transaction_ := env.rollback s.transaction_,
        trace := s.trace ++
          [.ev_rollback, .ev_current_error .e_deadlock_error,
           .ev_state .s_idle] } rfl hth hra hrs
    simp only at h2
    have h3 : after_result_then_before_command env fuel this_thread s =
        before_command env fuel this_thread
          { s with
            state_ := .s_idle,
            current_error_ := .e_deadlock_error,
            transaction_ := env.rollback s.transaction_,
            trace := s.trace ++
              [.ev_rollback, .ev_current_error .e_deadlock_error,
               .ev_state .s_idle] } := by
      simp only [after_result_then_before_command, bind_apply, h1]
    rw [h3, h2]
    by_cases hc :
        (env.after_statement (env.rollback s.transaction_)).active_ = false
    · simp only at hc
      refine ⟨?_, fun _ => ⟨_, if_pos hc⟩⟩
      intro r s1 h
      simp only [if_pos hc] at h
      cases h
      simp
    · simp only at hc
      refine ⟨?_, fun h => absurd h hc⟩
      intro r s1 h
      simp only [if_neg hc] at h
      cases h

/-- Witness of C18: with the concrete collaborator whose `rollback` leaves
the transaction active and aborted. -/
theorem after_command_after_result_leaves_cleanup_witness :
    ∃ s1, after_result_then_before_command mock_environment 0 7
      (session .s_result .e_success ⟨true, .s_must_abort⟩ .rm_async false) =
        .ok 1 s1 :=
  ((after_command_after_result_leaves_cleanup mock_environment 0 7
    (session .s_result .e_success ⟨true, .s_must_abort⟩ .rm_async false)).2
    rfl rfl rfl rfl rfl rfl).2 rfl

/-- C15: the deadlock error raised by a failing `before_command` does not
reach the next command.  For a session in `s_idle` whose transaction is
active and either in `s_must_abort` in asynchronous mode or in `s_aborted`,
with collaborators that behave as the code asserts: the owner's round trip
`before_command`, `after_command_before_result`,
`after_command_after_result` completes, `before_command` having returned 1;
the session is back in `s_idle` with the error `e_success` and the
transaction not active; and the next `before_command` returns 0. -/
theorem failed_command_does_not_leak (env : environment)
    (fuel this_thread : Nat) (s : client_context)
    (hidle : s.state_ = .s_idle) (hthread : this_thread = s.thread_id_)
    (hactive : s.transaction_.active_ = true)
    (hstate : (s.transaction_.state_ = .s_must_abort ∧
        s.server_context_.rollback_mode_ = .rm_async) ∨
      s.transaction_.state_ = .s_aborted)
    (henv : env.as_asserted) :
    ∃ s1, command_round_trip env fuel this_thread s = .ok 1 s1 ∧
      s1.state_ = .s_idle ∧
      s1.current_error_ = .e_success ∧
      s1.transaction_.active_ = false ∧
      before_command env fuel this_thread s1 =
        .ok 0 { s1 with state_ := .s_exec,
                        trace := s1.trace ++ [.ev_state .s_exec] } := by
  -- what `before_command` leaves behind, in either case
  have key : ∃ t l, t.active_ = false ∧ t.state_ = .s_aborted ∧
      before_command env fuel this_thread s =
        .ok 1 { s with
          state_ := .s_exec,
          current_error_ := .e_deadlock_error,
          transaction_ := t,
          trace := s.trace ++ l } := by
    rcases hstate with ⟨hmu, hm⟩ | hab
    · have h := before_command_must_abort env fuel this_thread s hidle
        hthread hactive hmu hm
      have h1 := henv.2 _ (henv.1 s.transaction_)
      rw [if_pos h1.1, if_pos h1.2] at h
      exact ⟨_, _, h1.2, h1.1, h⟩
    · have h := before_command_aborted env fuel this_thread s hidle hthread
        hactive hab
      have h1 := henv.2 _ hab
      rw [if_pos h1.2] at h
      exact ⟨_, _, h1.2, h1.1, h⟩
  obtain ⟨t, l, hta, hts, hb⟩ := key
  have h2 := after_command_before_result_plain env this_thread
    { s with
      state_ := .s_exec,
      current_error_ := .e_deadlock_error,
      transaction_ := t,
      trace := s.trace ++ l } rfl hthread (by simp [hta])
  have h3 := after_command_after_result_reset env this_thread
    { s with
      state_ := .s_result,
      current_error_ := .e_deadlock_error,
      transaction_ := t,
      trace := s.trace ++ l ++ [.ev_state .s_result] } rfl hthread hta
    (by simp [hts])
  have h4 := before_command_inactive env fuel this_thread
    { s with
      state_ := .s_idle,
      current_error_ := .e_success,
      transaction_ := t,
      trace := s.trace ++ l ++ [.ev_state .s_result] ++
        [.ev_current_error .e_success, .ev_state .s_idle] } rfl
    (fun _ => by simp [hts]) hthread hta
  refine ⟨_, ?_, ?_, ?_, ?_, h4⟩
  · simp only [command_round_trip, bind_apply, pure_apply, hb, h2, h3]
  · rfl
  · rfl
  · exact hta

/-- Witness of C15: a session of thread 7 whose transaction was flagged
`s_must_abort` while it was idle, in asynchronous mode. -/
theorem failed_command_does_not_leak_witness :
    ∃ s1, command_round_trip mock_environment 0 7
        (session .s_idle .e_success ⟨true, .s_must_abort⟩ .rm_async false) =
          .ok 1 s1 ∧
      s1.state_ = .s_idle ∧
      s1.current_error_ = .e_success ∧
      s1.transaction_.active_ = false ∧
      before_command mock_environment 0 7 s1 =
        .ok 0 { s1 with state_ := .s_exec,
                        trace := s1.trace ++ [.ev_state .s_exec] } :=
  failed_command_does_not_leak mock_environment 0 7
    (session .s_idle .e_success ⟨true, .s_must_abort⟩ .rm_async false)
    rfl rfl rfl (Or.inl ⟨rfl, rfl⟩) mock_environment_as_asserted

/-! ## The wait of `before_command` in synchronous mode -/

/-- Reads of a loop that starts one turn later, on the transaction as the
foreign thread left it, are the later reads of the loop. -/
theorem observed_shift (env : environment) (start : Nat)
    (t : transaction_context) :
    ∀ k, observed env (start + 1) (env.foreign start t) k =
      observed env start t (k + 1) := by
  intro k
  induction k with
  | zero => simp [observed]
  | succ n ih =>
    rw [observed, ih]
    conv_rhs => rw [observed]
    have e : start + 1 + n = start + (n + 1) := by omega
    rw [e]

/-- As long as every read finds `s_aborting`, the busy-wait loop is still
waiting, with the transaction as the last read found it. -/
theorem wait_while_aborting_spins (env : environment) :
    ∀ (fuel start : Nat) (s : client_context),
      (∀ k, k ≤ fuel →
        (observed env start s.transaction_ k).state_ = .s_aborting) →
      wait_while_aborting env fuel start s =
        .fail .still_waiting
          { s with transaction_ := observed env start s.transaction_ fuel } := by
  intro fuel
  induction fuel with
  | zero =>
    intro start s h
    have h0 := h 0 (Nat.le_refl 0)
    simp only [observed] at h0
    simp [wait_while_aborting, observed, h0]
  | succ n ih =>
    intro start s h
    have h0 := h 0 (Nat.zero_le _)
    simp only [observed] at h0
    have hstep := ih (start + 1)
      { s with transaction_ := env.foreign start s.transaction_ }
      (by
        intro k hk
        simp only
        rw [observed_shift]
        exact h (k + 1) (by omega))
    simp only [observed_shift] at hstep
    simp only [wait_while_aborting, h0, if_true]
    exact hstep

/-- When the busy-wait loop ends, some read found the transaction out of
`s_aborting`, every read before it found `s_aborting`, and the loop leaves
the transaction as that last read found it. -/
theorem wait_while_aborting_exits (env : environment) :
    ∀ (fuel start : Nat) (s s1 : client_context),
      wait_while_aborting env fuel start s = .ok () s1 →
      ∃ k, k ≤ fuel ∧
        (observed env start s.transaction_ k).state_ ≠ .s_aborting ∧
        (∀ j, j < k →
          (observed env start s.transaction_ j).state_ = .s_aborting) ∧
        s1 = { s with transaction_ := observed env start s.transaction_ k } := by
  intro fuel
  induction fuel with
  | zero =>
    intro start s s1 h
    by_cases h0 : s.transaction_.state_ = .s_aborting
    · simp [wait_while_aborting, h0] at h
    · simp only [wait_while_aborting, h0, if_false] at h
      cases h
      exact ⟨0, Nat.le_refl 0, by simpa [observed] using h0,
        fun j hj => absurd hj (Nat.not_lt_zero j), rfl⟩
  | succ n ih =>
    intro start s s1 h
    by_cases h0 : s.transaction_.state_ = .s_aborting
    · simp only [wait_while_aborting, h0, if_true] at h
      obtain ⟨k, hk, hne, hbefore, hs1⟩ := ih (start + 1) _ s1 h
      simp only [observed_shift] at hne hbefore hs1
      refine ⟨k + 1, by omega, hne, ?_, hs1⟩
      intro j hj
      cases j with
      | zero => simpa [observed] using h0
      | succ i => exact hbefore i (by omega)
    · simp only [wait_while_aborting, h0, if_false] at h
      cases h
      exact ⟨0, Nat.zero_le _, by simpa [observed] using h0,
        fun j hj => absurd hj (Nat.not_lt_zero j), rfl⟩

/-- C12: in synchronous rollback mode `before_command` does not return
while its wait loop reads `s_aborting`.  For a session in `s_idle`: if each
of the reads the call makes (as many as the fuel follows) finds the
transaction in `s_aborting`, the call is still waiting, it has not returned
and the lifecycle state is still `s_idle`.  And whenever the call returns,
one of its reads has found the transaction out of `s_aborting`, after reads
that all found `s_aborting`: the state last read by the loop was not
`s_aborting`. -/
theorem before_command_waits_while_aborting (env : environment)
    (fuel this_thread : Nat) (s : client_context)
    (hsync : s.server_context_.rollback_mode_ = .rm_sync) :
    (s.state_ = .s_idle →
      (∀ k, k ≤ fuel →
        (observed env 0 s.transaction_ k).state_ = .s_aborting) →
      before_command env fuel this_thread s =
        .fail .still_waiting
          { s with transaction_ := observed env 0 s.transaction_ fuel } ∧
      (before_command env fuel this_thread s).final.state_ = .s_idle) ∧
    (∀ r s1, before_command env fuel this_thread s = .ok r s1 →
      ∃ k, k ≤ fuel ∧
        (observed env 0 s.transaction_ k).state_ ≠ .s_aborting ∧
        (∀ j, j < k →
          (observed env 0 s.transaction_ j).state_ = .s_aborting)) := by
  refine ⟨?_, ?_⟩
  · intro hidle hall
    have hw := wait_while_aborting_spins env fuel 0 s hall
    have hb := before_command_still_waiting env fuel this_thread s _ hidle
      hsync hw
    refine ⟨hb, ?_⟩
    rw [hb]
    simp [outcome.final, hidle]
  · intro r s1 h
    by_cases hidle : s.state_ = .s_idle
    swap
    · rw [before_command_not_idle env fuel this_thread s hidle] at h
      cases h
    obtain ⟨t, ht | ht⟩ := wait_while_aborting_frame env fuel 0 s
    · obtain ⟨k, hk, hne, hbefore, _⟩ :=
        wait_while_aborting_exits env fuel 0 s _ ht.1
      exact ⟨k, hk, hne, hbefore⟩
    · rw [before_command_still_waiting env fuel this_thread s _ hidle hsync
        ht.1] at h
      cases h

/-- Witness of C12: thread 7 starts a command in synchronous mode while the
transaction is in `s_aborting` and the foreign thread finishes the rollback
during the first turn of the loop: the call returns, and the read that let
it go on, the second, found the transaction out of `s_aborting`. -/
theorem before_command_waits_while_aborting_witness :
    (session .s_idle .e_success ⟨true, .s_aborting⟩ .rm_sync
        false).server_context_.rollback_mode_ = .rm_sync ∧
    before_command mock_environment 1 7
        (session .s_idle .e_success ⟨true, .s_aborting⟩ .rm_sync false) =
      .ok 1 { session .s_exec .e_deadlock_error ⟨false, .s_aborted⟩ .rm_sync
                false with
              trace := [.ev_state .s_exec,
                .ev_current_error .e_deadlock_error,
                .ev_transaction_after_statement] } ∧
    ∃ k, k ≤ 1 ∧
      (observed mock_environment 0 ⟨true, .s_aborting⟩ k).state_ ≠
        .s_aborting ∧
      (∀ j, j < k →
        (observed mock_environment 0 ⟨true, .s_aborting⟩ j).state_ =
          .s_aborting) :=
  ⟨rfl, rfl,
    (before_command_waits_while_aborting mock_environment 1 7
      (session .s_idle .e_success ⟨true, .s_aborting⟩ .rm_sync false)
      rfl).2 1 _ rfl⟩

/-! ## The error slot across the operations -/

/-- Forgetting the returned value does not change the object left behind. -/
theorem forget_final {α : Type} (o : outcome α) : o.forget.final = o.final := by
  cases o <;> rfl

/-- The call `override_error` leaves an error that was set either as it was
or replaced by the new kind, never cleared. -/
theorem override_error_final_error (this_thread : Nat) (error : client_error)
    (s : client_context) (herr : s.current_error_ ≠ .e_success) :
    (override_error this_thread error s).final.current_error_ ≠
      .e_success := by
  by_cases hth : this_thread = s.thread_id_
  · by_cases he : error = .e_success
    · simp [override_error, bind_apply, get_self_apply, assert,
        throw_runtime_error, outcome.final, hth, he, herr]
    · simp [override_error, bind_apply, get_self_apply, pure_apply, assert,
        throw_runtime_error, set_current_error, outcome.final, hth, he]
  · simp [override_error, bind_apply, get_self_apply, assert, outcome.final,
      hth, herr]

/-- The call `before_command` that does not have to wait leaves the error
as it was or sets the deadlock error. -/
theorem before_command_final_error_ready (env : environment)
    (fuel this_thread : Nat) (s : client_context)
    (hready : s.server_context_.rollback_mode_ = .rm_sync →
      s.transaction_.state_ ≠ .s_aborting) :
    (before_command env fuel this_thread s).final.current_error_ =
        s.current_error_ ∨
      (before_command env fuel this_thread s).final.current_error_ =
        .e_deadlock_error := by
  by_cases hidle : s.state_ = .s_idle
  swap
  · rw [before_command_not_idle env fuel this_thread s hidle]
    exact Or.inl rfl
  by_cases hth : this_thread = s.thread_id_
  swap
  · rw [before_command_not_owner env fuel this_thread s hidle hready hth]
    exact Or.inl rfl
  by_cases hact : s.transaction_.active_ = true
  swap
  · rw [before_command_inactive env fuel this_thread s hidle hready hth
      (by simpa using hact)]
    exact Or.inl rfl
  by_cases hex : s.transaction_.state_ = .s_executing
  · rw [before_command_executing env fuel this_thread s hidle hth hact hex]
    exact Or.inl rfl
  by_cases hab : s.transaction_.state_ = .s_aborted
  · rw [before_command_aborted env fuel this_thread s hidle hth hact hab]
    split <;> exact Or.inr rfl
  by_cases hmu : s.transaction_.state_ = .s_must_abort
  · by_cases hm : s.server_context_.rollback_mode_ = .rm_async
    · rw [before_command_must_abort env fuel this_thread s hidle hth hact hmu
        hm]
      split
      · split <;> exact Or.inr rfl
      · exact Or.inr rfl
    · have hs : s.server_context_.rollback_mode_ = .rm_sync := by
        cases hr : s.server_context_.rollback_mode_
        · exact absurd hr hm
        · rfl
      rw [before_command_unexpected env fuel this_thread s hidle hready hth
        hact hex hab (fun _ => hs)]
      exact Or.inl rfl
  · rw [before_command_unexpected env fuel this_thread s hidle hready hth
      hact hex hab (fun h => absurd h hmu)]
    exact Or.inl rfl

/-- The call `before_command` leaves the error as it was or sets the
deadlock error, however long it waits. -/
theorem before_command_final_error (env : environment)
    (fuel this_thread : Nat) (s : client_context) :
    (before_command env fuel this_thread s).final.current_error_ =
        s.current_error_ ∨
      (before_command env fuel this_thread s).final.current_error_ =
        .e_deadlock_error := by
  by_cases hready : s.server_context_.rollback_mode_ = .rm_sync →
      s.transaction_.state_ ≠ .s_aborting
  · exact before_command_final_error_ready env fuel this_thread s hready
  · have hsync : s.server_context_.rollback_mode_ = .rm_sync := by
      by_contra hc
      exact hready (fun h => absurd h hc)
    by_cases hidle : s.state_ = .s_idle
    swap
    · rw [before_command_not_idle env fuel this_thread s hidle]
      exact Or.inl rfl
    obtain ⟨t, ht | ht⟩ := wait_while_aborting_frame env fuel 0 s
    · rw [before_command_after_wait env fuel this_thread s t hidle hsync
        ht.1 ht.2]
      exact before_command_final_error_ready env 0 this_thread
        { s with transaction_ := t } (fun _ => ht.2)
    · rw [before_command_still_waiting env fuel this_thread s _ hidle hsync
        ht.1]
      exact Or.inl rfl

/-- The call `after_statement` leaves the error as it was. -/
theorem after_statement_final_error (env : environment)
    (s : client_context) :
    (after_statement env s).final.current_error_ = s.current_error_ := by
  by_cases hst : s.state_ = .s_exec
  · obtain ⟨r, h⟩ := after_statement_returns env s hst
    rw [h]
    rfl
  · simp [after_statement, bind_apply, get_self_apply, assert, outcome.final,
      hst]

/-- The call `after_command_before_result` leaves the error as it was or
sets the deadlock error. -/
theorem after_command_before_result_final_error (env : environment)
    (this_thread : Nat) (s : client_context) :
    (after_command_before_result env this_thread s).final.current_error_ =
        s.current_error_ ∨
      (after_command_before_result env this_thread s).final.current_error_ =
        .e_deadlock_error := by
  rw [after_command_before_result_eq]
  split_ifs <;> simp [outcome.final]

/-- The call `after_command_after_result` leaves the error as it was, sets
the deadlock error, or, on the path for a transaction that is not active,
clears it. -/
theorem after_command_after_result_final_error (env : environment)
    (this_thread : Nat) (s : client_context) :
    (after_command_after_result env this_thread s).final.current_error_ =
        s.current_error_ ∨
      (after_command_after_result env this_thread s).final.current_error_ =
        .e_deadlock_error ∨
      s.transaction_.active_ = false := by
  rw [after_command_after_result_eq]
  split_ifs with h1 h2 h3 h4 h5 h6 h7 h8 <;> simp [outcome.final, *]

/-- C11: for every operation of the session (`override_error`,
`before_command`, `before_statement`, `after_statement`,
`after_command_before_result`, `after_command_after_result`), every calling
thread and every session whose error is set: if the call leaves the error
cleared (whether it returns or is stopped), the operation is
`after_command_after_result` and the transaction was not active when the
call inspected it.  No other operation and no other path clears an error
that is set. -/
theorem error_cleared_only_after_result (env : environment)
    (this_thread : Nat) (op : operation) (s : client_context)
    (herr : s.current_error_ ≠ .e_success) :
    ((op.run env this_thread s).final.current_error_ = .e_success →
      op = .op_after_command_after_result ∧
      s.transaction_.active_ = false) ∧
    (∀ s1, op.run env this_thread s = .ok () s1 →
      s1.current_error_ = .e_success →
      op = .op_after_command_after_result ∧
      s.transaction_.active_ = false) := by
  have main : (op.run env this_thread s).final.current_error_ = .e_success →
      op = .op_after_command_after_result ∧
      s.transaction_.active_ = false := by
    intro h
    cases op with
    | op_override_error error =>
      exact absurd h (override_error_final_error this_thread error s herr)
    | op_before_command fuel =>
      simp only [operation.run, forget_final] at h
      rcases before_command_final_error env fuel this_thread s with h1 | h1
      · rw [h1] at h
        exact absurd h herr
      · rw [h1] at h
        cases h
    | op_before_statement =>
      simp only [operation.run, forget_final] at h
      obtain ⟨r, hr⟩ := before_statement_returns s
      rw [hr] at h
      exact absurd h herr
    | op_after_statement =>
      simp only [operation.run, forget_final] at h
      rw [after_statement_final_error] at h
      exact absurd h herr
    | op_after_command_before_result =>
      simp only [operation.run] at h
      rcases after_command_before_result_final_error env this_thread s
        with h1 | h1
      · rw [h1] at h
        exact absurd h herr
      · rw [h1] at h
        cases h
    | op_after_command_after_result =>
      simp only [operation.run] at h
      rcases after_command_after_result_final_error env this_thread s
        with h1 | h1 | h1
      · rw [h1] at h
        exact absurd h herr
      · rw [h1] at h
        cases h
      · exact ⟨rfl, h1⟩
  refine ⟨main, ?_⟩
  intro s1 h1 h2
  apply main
  rw [h1]
  exact h2

/-- Witness of C11: the one path that clears an error, taken by thread 7 at
the end of a command whose transaction is no longer active. -/
theorem error_cleared_only_after_result_witness :
    (session .s_result .e_deadlock_error ⟨false, .s_aborted⟩ .rm_async
        false).current_error_ ≠ .e_success ∧
    (operation.run mock_environment 7 .op_after_command_after_result
        (session .s_result .e_deadlock_error ⟨false, .s_aborted⟩ .rm_async
          false)).final.current_error_ = .e_success ∧
    (operation.op_after_command_after_result =
        operation.op_after_command_after_result ∧
      (session .s_result .e_deadlock_error ⟨false, .s_aborted⟩ .rm_async
        false).transaction_.active_ = false) :=
  ⟨by decide, rfl,
    (error_cleared_only_after_result mock_environment 7
      .op_after_command_after_result
      (session .s_result .e_deadlock_error ⟨false, .s_aborted⟩ .rm_async
        false) (by decide)).1 rfl⟩

/-! ## Calls from another thread than the owner -/

/-- What does hold for a call made by another thread than the owner:
`override_error`, `state`, `before_command` and
`after_command_before_result` do not return and leave the lifecycle state
and the error as they were, and so does `after_command_after_result` when
the transaction is active. -/
theorem foreign_thread_leaves_state_and_error (env : environment)
    (fuel this_thread : Nat) (s : client_context)
    (hforeign : this_thread ≠ s.thread_id_) :
    (∀ error, override_error this_thread error s = .fail .wrong_thread s) ∧
    (∀ lock target, state this_thread lock target s =
      .fail .wrong_thread s) ∧
    (∃ f s1, before_command env fuel this_thread s = .fail f s1 ∧
      s1.state_ = s.state_ ∧ s1.current_error_ = s.current_error_) ∧
    (∃ f, after_command_before_result env this_thread s = .fail f s) ∧
    (s.transaction_.active_ = true →
      ∃ f s1, after_command_after_result env this_thread s = .fail f s1 ∧
        s1.state_ = s.state_ ∧ s1.current_error_ = s.current_error_) := by
  refine ⟨?_, ?_, ?_, ?_, ?_⟩
  · intro error
    simp [override_error, bind_apply, get_self_apply, assert, hforeign]
  · intro lock target
    simp [state, bind_apply, get_self_apply, assert, hforeign]
  · by_cases hidle : s.state_ = .s_idle
    swap
    · exact ⟨_, _, before_command_not_idle env fuel this_thread s hidle,
        rfl, rfl⟩
    by_cases hready : s.server_context_.rollback_mode_ = .rm_sync →
        s.transaction_.state_ ≠ .s_aborting
    · exact ⟨_, _, before_command_not_owner env fuel this_thread s hidle
        hready hforeign, rfl, rfl⟩
    · have hsync : s.server_context_.rollback_mode_ = .rm_sync := by
        by_contra hc
        exact hready (fun h => absurd h hc)
      obtain ⟨t, ht | ht⟩ := wait_while_aborting_frame env fuel 0 s
      · refine ⟨.wrong_thread, { s with transaction_ := t }, ?_, rfl, rfl⟩
        rw [before_command_after_wait env fuel this_thread s t hidle hsync
          ht.1 ht.2]
        exact before_command_not_owner env 0 this_thread
          { s with transaction_ := t } hidle (fun _ => ht.2) hforeign
      · exact ⟨_, _, before_command_still_waiting env fuel this_thread s _
          hidle hsync ht.1, rfl, rfl⟩
  · rw [after_command_before_result_eq]
    split_ifs
    · exact ⟨_, rfl⟩
    · exact ⟨_, rfl⟩
    · exact ⟨_, rfl⟩
  · intro hact
    rw [after_command_after_result_eq]
    split_ifs with h1 h2 h3 h4 h5
    · exact ⟨_, _, rfl, rfl, rfl⟩
    · exact ⟨_, _, rfl, rfl, rfl⟩
    · exact ⟨_, _, rfl, rfl, rfl⟩
    · exact ⟨_, _, rfl, rfl, rfl⟩
    · rw [hact] at h5
      cases h5
    · exact ⟨_, _, rfl, rfl, rfl⟩

/-- The path of `after_command_after_result` for a transaction that is not
active, taken by another thread than the owner: the error is cleared by the
assignment of line 126 before the owner check of `state` stops the call. -/
theorem after_command_after_result_foreign_inactive (env : environment)
    (this_thread : Nat) (s : client_context)
    (hstate : s.state_ = .s_result)
    (hforeign : this_thread ≠ s.thread_id_)
    (hinactive : s.transaction_.active_ = false)
    (hsettled : s.transaction_.state_ ≠ .s_aborting) :
    after_command_after_result env this_thread s =
      .fail .wrong_thread { s with
        current_error_ := .e_success,
        trace := s.trace ++ [.ev_current_error .e_success] } := by
  rw [after_command_after_result_eq]
  simp [hstate, hforeign, hinactive, hsettled]

/-- C14, at the input where the code departs from it: thread 8 calls
`after_command_after_result` on a session owned by thread 7, in `s_result`,
with the deadlock error set and the transaction not active.  The owner
check fails, but only in `state`, after the assignment of line 126: the
call leaves the error cleared. -/
theorem after_command_after_result_clears_error_for_foreign_thread :
    after_command_after_result mock_environment 8
        (session .s_result .e_deadlock_error ⟨false, .s_aborted⟩ .rm_async
          false) =
      .fail .wrong_thread
        { session .s_result .e_success ⟨false, .s_aborted⟩ .rm_async false
          with trace := [.ev_current_error .e_success] } := by
  rfl

end wsrep
